import Mathlib

/-!
# Inventory check transaction engine (wms)

A shallow embedding of `internal/service/inventory_service.go` and of the
repository it drives (`internal/repository/inventory_check_repository.go`),
with theorems about single checks and batches.

## Modelling conventions

* Go `int` is the 64-bit two's-complement integer: quantities are `Int`
  values and the one arithmetic operation of the service (the variance
  subtraction) is wrapped by `wrapInt`.
* Go `error` values are terms of `Error`; `fmt.Errorf("msg: %w", err)` is
  `Error.wrap "msg" err`.
* The relational store behind gorm is a pair of row lists (`Tables`), rows in
  primary-key order. A transaction is a working copy of the tables taken by
  `BeginTransaction`; `CommitTransaction` installs the working copy and a
  rollback discards it.
* What a store call does besides its intrinsic semantics (return an error,
  panic) is dictated by an `Env`: one `Outcome` per repository operation, and
  one per successive `RollbackTransaction` call.
* A run of the service yields a `Run`: the Go result (a returned error value
  or a propagating panic), the log of store calls made, and the committed
  tables afterwards.
-/

namespace Wms

/-! ## Errors -/

/-- Go error values: a plain message, or a message wrapping a cause (`%w`). -/
inductive Error where
  | base (msg : String)
  | wrap (msg : String) (cause : Error)
deriving DecidableEq, Repr

/-- The text of an error, as `Error()` prints it. -/
def Error.message : Error → String
  | .base m => m
  | .wrap m c => m ++ ": " ++ c.message

/-- The unwrap chain of `e` reaches `c` (what `errors.Is` walks). -/
def Error.wraps : Error → Error → Bool
  | .base m, c => decide (Error.base m = c)
  | .wrap m c0, c => decide (Error.wrap m c0 = c) || c0.wraps c

/-! ## Machine integers -/

/-- Reduction of a mathematical integer to Go's 64-bit `int`. -/
def wrapInt (x : Int) : Int := (x + 2 ^ 63) % 2 ^ 64 - 2 ^ 63

/-- The values a Go `int` can hold. -/
def IsGoInt (x : Int) : Prop := -(2 ^ 63) ≤ x ∧ x < 2 ^ 63

instance (x : Int) : Decidable (IsGoInt x) := by
  unfold IsGoInt; infer_instance

/-! ## Data model (`internal/model`, `service.InventoryCheckInput`) -/

/-- The service input `InventoryCheckInput`. -/
structure InventoryCheckInput where
  CheckerID : String
  LocationCode : String
  MaterialCode : String
  ActualQuantity : Int
deriving DecidableEq, Repr

/-- The row type `model.Stock`; timestamps are clock readings. -/
structure Stock where
  ID : Nat
  MaterialCode : String
  LocationCode : String
  Quantity : Int
  CreatedAt : Nat
  UpdatedAt : Nat
deriving DecidableEq, Repr

/-- The row type `model.InventoryCheckRecord`. -/
structure InventoryCheckRecord where
  ID : Nat
  CheckerID : String
  LocationCode : String
  MaterialCode : String
  ActualQuantity : Int
  StockQuantity : Int
  Difference : Int
  CheckTime : Nat
  IsProcessed : Bool
  CreatedAt : Nat
  UpdatedAt : Nat
deriving DecidableEq, Repr

/-- The two tables of the store, rows in primary-key order. -/
structure Tables where
  stocks : List Stock
  records : List InventoryCheckRecord
deriving DecidableEq, Repr

/-! ## Store behaviour -/

/-- What the environment makes of one store call: let it run, make it return
an error, or make it panic. -/
inductive Outcome where
  | ok
  | fail (e : Error)
  | fault (p : String)
deriving DecidableEq, Repr

/-- The behaviour of the store during one `ProcessInventoryCheck` call, and the
clock readings of that call. `rollback k` is the outcome of the call's
`k`-th `RollbackTransaction` (counted from 0). -/
structure Env where
  begin : Outcome
  get : Outcome
  create : Outcome
  update : Outcome
  commit : Outcome
  rollback : Nat → Outcome
  now : Nat
  storeNow : Nat

/-- No store operation panics under `env`. -/
def Env.NoPanic (env : Env) : Prop :=
  (∀ p, env.begin ≠ .fault p) ∧ (∀ p, env.get ≠ .fault p) ∧
  (∀ p, env.create ≠ .fault p) ∧ (∀ p, env.update ≠ .fault p) ∧
  (∀ p, env.commit ≠ .fault p) ∧ (∀ k p, env.rollback k ≠ .fault p)

/-- The environment in which nothing is injected: every call runs. -/
def Env.allOk (now storeNow : Nat) : Env :=
  { begin := .ok, get := .ok, create := .ok, update := .ok, commit := .ok,
    rollback := fun _ => .ok, now := now, storeNow := storeNow }

/-- The result of a repository call. -/
inductive OpResult (α : Type) where
  | ok (a : α)
  | fail (e : Error)
  | fault (p : String)

/-! ## Repository (`inventory_check_repository.go`) over the store model -/

/-- The key an auto-increment column hands out, modelled as one more than the
largest key present. A rolled-back insert therefore gives its key back, which
a database sequence does not: what is stated about tables across a rolled-back
transaction is stated up to keys (`Tables.withoutKeys`). -/
def nextID (ids : List Nat) : Nat := ids.foldr max 0 + 1

/-- The error of a violated unique or primary-key constraint. -/
def duplicateKey : Error := .base "duplicate key value violates unique constraint"

/-- The stamp of an `autoCreateTime`/`autoUpdateTime` column on insert: the
store clock when the field is zero. -/
def stamp (given now : Nat) : Nat := if given = 0 then now else given

/-- The gorm call `tx.Create(record)` on the check-record table: a zero primary
key is filled from the sequence, a given one must be unused. -/
def createRecord (now : Nat) (t : List InventoryCheckRecord) (r : InventoryCheckRecord) :
    Except Error (List InventoryCheckRecord) :=
  let id := if r.ID = 0 then nextID (t.map (·.ID)) else r.ID
  if t.any (fun x => x.ID == id) then .error duplicateKey
  else .ok (t ++ [{ r with ID := id, CreatedAt := stamp r.CreatedAt now,
                           UpdatedAt := stamp r.UpdatedAt now }])

/-- The lookup `tx.Where("material_code = ? AND location_code = ?", m, l).First(&stock)`:
the matching row with the least primary key, if any. -/
def firstStock (t : List Stock) (m l : String) : Option Stock :=
  t.find? (fun s => s.MaterialCode == m && s.LocationCode == l)

/-- An `INSERT` into the stock table under its primary key and the unique index
`idx_material_location`. -/
def insertStock (now : Nat) (t : List Stock) (s : Stock) (id : Nat) :
    Except Error (List Stock) :=
  if t.any (fun x => x.ID == id) then .error duplicateKey
  else if t.any (fun x => x.MaterialCode == s.MaterialCode && x.LocationCode == s.LocationCode)
  then .error duplicateKey
  else .ok (t ++ [{ s with ID := id, CreatedAt := stamp s.CreatedAt now,
                           UpdatedAt := stamp s.UpdatedAt now }])

/-- The gorm call `tx.Save(stock)`: with a zero primary key an insert under a
fresh key; otherwise an update of the row of that key (all columns written,
`UpdatedAt` stamped), and an insert under that key when no row has it. -/
def saveStock (now : Nat) (t : List Stock) (s : Stock) : Except Error (List Stock) :=
  if s.ID = 0 then insertStock now t s (nextID (t.map (·.ID)))
  else if t.any (fun x => x.ID == s.ID) then
    .ok (t.map (fun x => if x.ID = s.ID then { s with UpdatedAt := now } else x))
  else insertStock now t s s.ID

/-- `BeginTransaction`: a working copy of the committed tables, or `tx.Error`. -/
def BeginTransaction (env : Env) (db : Tables) : OpResult Tables :=
  match env.begin with
  | .ok => .ok db
  | .fail e => .fail e
  | .fault p => .fault p

/-- `GetStockByMaterialAndLocation`: `ErrRecordNotFound` becomes `(nil, nil)`,
here `none`; any other error is returned. -/
def GetStockByMaterialAndLocation (env : Env) (tx : Tables) (materialCode locationCode : String) :
    OpResult (Option Stock) :=
  match env.get with
  | .ok => .ok (firstStock tx.stocks materialCode locationCode)
  | .fail e => .fail e
  | .fault p => .fault p

/-- `CreateCheckRecord`: `tx.Create(record).Error`. -/
def CreateCheckRecord (env : Env) (tx : Tables) (record : InventoryCheckRecord) :
    OpResult Tables :=
  match env.create with
  | .ok =>
    match createRecord env.storeNow tx.records record with
    | .ok rs => .ok { tx with records := rs }
    | .error e => .fail e
  | .fail e => .fail e
  | .fault p => .fault p

/-- `UpdateStock`: `tx.Save(stock).Error`. -/
def UpdateStock (env : Env) (tx : Tables) (stock : Stock) : OpResult Tables :=
  match env.update with
  | .ok =>
    match saveStock env.storeNow tx.stocks stock with
    | .ok ss => .ok { tx with stocks := ss }
    | .error e => .fail e
  | .fail e => .fail e
  | .fault p => .fault p

/-- `CommitTransaction`: on success the working copy becomes the committed
tables; a failed commit installs nothing. -/
def CommitTransaction (env : Env) (tx : Tables) : OpResult Tables :=
  match env.commit with
  | .ok => .ok tx
  | .fail e => .fail e
  | .fault p => .fault p

/-- `RollbackTransaction`, the `k`-th of a run: the working copy is dropped
whatever the outcome, so only the outcome is returned. -/
def RollbackTransaction (env : Env) (k : Nat) : Outcome := env.rollback k

/-! ## Service (`inventory_service.go`) -/

/-- The repository operations, as entries of the call log. -/
inductive Op where
  | BeginTransaction
  | GetStockByMaterialAndLocation
  | CreateCheckRecord
  | UpdateStock
  | CommitTransaction
  | RollbackTransaction
deriving DecidableEq, Repr

/-- One logged store call: the operation and how it ended. -/
structure Call where
  op : Op
  outcome : Outcome
deriving DecidableEq, Repr

/-- How a Go call ends: it returns its `error` result (`none` is `nil`), or a
panic propagates to the caller. -/
inductive Result where
  | returned (err : Option Error)
  | panicked (p : String)
deriving DecidableEq, Repr

/-- The observable effect of one `ProcessInventoryCheck` call. -/
structure Run where
  result : Result
  calls : List Call
  db : Tables
deriving DecidableEq, Repr

/-- `validateInput`: the first violated rule, or `none` (`nil`). -/
def validateInput (input : InventoryCheckInput) : Option Error :=
  if input.CheckerID = "" then some (.base "checker_id is required")
  else if input.LocationCode = "" then some (.base "location_code is required")
  else if input.MaterialCode = "" then some (.base "material_code is required")
  else if input.ActualQuantity < 0 then
    some (.base ("actual_quantity cannot be negative: " ++ toString input.ActualQuantity))
  else none

/-- The deferred function of `ProcessInventoryCheck` once a panic is under way
(`recover()` returned non-nil): it rolls back and logs. It does not panic
again and the function has an unnamed result, so the call returns the zero
value `nil`; only a panic of the rollback itself propagates. -/
def recovered (env : Env) (db : Tables) (calls : List Call) (k : Nat) : Run :=
  match RollbackTransaction env k with
  | .ok => ⟨.returned none, calls ++ [⟨.RollbackTransaction, .ok⟩], db⟩
  | .fail e => ⟨.returned none, calls ++ [⟨.RollbackTransaction, .fail e⟩], db⟩
  | .fault p => ⟨.panicked p, calls ++ [⟨.RollbackTransaction, .fault p⟩], db⟩

/-- The common tail of the error branches: `s.repo.RollbackTransaction(tx)`
(its error ignored), then `return err`. A panicking rollback lands in the
deferred function. -/
def rollbackAndReturn (env : Env) (db : Tables) (calls : List Call) (err : Error) : Run :=
  match RollbackTransaction env 0 with
  | .ok => ⟨.returned (some err), calls ++ [⟨.RollbackTransaction, .ok⟩], db⟩
  | .fail e => ⟨.returned (some err), calls ++ [⟨.RollbackTransaction, .fail e⟩], db⟩
  | .fault p => recovered env db (calls ++ [⟨.RollbackTransaction, .fault p⟩]) 1

/-- The stock quantity the record shows: 0 when no balance was found. -/
def priorQuantity (found : Option Stock) : Int :=
  match found with
  | none => 0
  | some s => s.Quantity

/-- The stock value handed to `UpdateStock`: a new value with zero key for an
absent balance, else the found row with its quantity overwritten. -/
def newStock (input : InventoryCheckInput) (found : Option Stock) : Stock :=
  match found with
  | none => { ID := 0, MaterialCode := input.MaterialCode, LocationCode := input.LocationCode,
              Quantity := input.ActualQuantity, CreatedAt := 0, UpdatedAt := 0 }
  | some s => { s with Quantity := input.ActualQuantity }

/-- The check record the service builds before writing it. -/
def newRecord (env : Env) (input : InventoryCheckInput) (found : Option Stock) :
    InventoryCheckRecord :=
  { ID := 0
    CheckerID := input.CheckerID
    LocationCode := input.LocationCode
    MaterialCode := input.MaterialCode
    ActualQuantity := input.ActualQuantity
    StockQuantity := priorQuantity found
    Difference := wrapInt (input.ActualQuantity - priorQuantity found)
    CheckTime := env.now
    IsProcessed := true
    CreatedAt := 0
    UpdatedAt := 0 }

/-- `ProcessInventoryCheck` on the committed tables `db` under the store
behaviour `env`. -/
def ProcessInventoryCheck (env : Env) (db : Tables) (input : InventoryCheckInput) : Run :=
  match validateInput input with
  | some err => ⟨.returned (some (.wrap "input validation failed" err)), [], db⟩
  | none =>
  match BeginTransaction env db with
  | .fault p => ⟨.panicked p, [⟨.BeginTransaction, .fault p⟩], db⟩
  | .fail e =>
    ⟨.returned (some (.wrap "failed to begin transaction" e)), [⟨.BeginTransaction, .fail e⟩], db⟩
  | .ok tx =>
  match GetStockByMaterialAndLocation env tx input.MaterialCode input.LocationCode with
  | .fault p =>
    recovered env db [⟨.BeginTransaction, .ok⟩, ⟨.GetStockByMaterialAndLocation, .fault p⟩] 0
  | .fail e =>
    rollbackAndReturn env db
      [⟨.BeginTransaction, .ok⟩, ⟨.GetStockByMaterialAndLocation, .fail e⟩]
      (.wrap "failed to fetch stock" e)
  | .ok found =>
  match CreateCheckRecord env tx (newRecord env input found) with
  | .fault p =>
    recovered env db [⟨.BeginTransaction, .ok⟩, ⟨.GetStockByMaterialAndLocation, .ok⟩,
      ⟨.CreateCheckRecord, .fault p⟩] 0
  | .fail e =>
    rollbackAndReturn env db
      [⟨.BeginTransaction, .ok⟩, ⟨.GetStockByMaterialAndLocation, .ok⟩,
       ⟨.CreateCheckRecord, .fail e⟩]
      (.wrap "failed to create check record" e)
  | .ok tx1 =>
  match UpdateStock env tx1 (newStock input found) with
  | .fault p =>
    recovered env db [⟨.BeginTransaction, .ok⟩, ⟨.GetStockByMaterialAndLocation, .ok⟩,
      ⟨.CreateCheckRecord, .ok⟩, ⟨.UpdateStock, .fault p⟩] 0
  | .fail e =>
    rollbackAndReturn env db
      [⟨.BeginTransaction, .ok⟩, ⟨.GetStockByMaterialAndLocation, .ok⟩,
       ⟨.CreateCheckRecord, .ok⟩, ⟨.UpdateStock, .fail e⟩]
      (.wrap "failed to update stock" e)
  | .ok tx2 =>
  match CommitTransaction env tx2 with
  | .fault p =>
    recovered env db [⟨.BeginTransaction, .ok⟩, ⟨.GetStockByMaterialAndLocation, .ok⟩,
      ⟨.CreateCheckRecord, .ok⟩, ⟨.UpdateStock, .ok⟩, ⟨.CommitTransaction, .fault p⟩] 0
  | .fail e =>
    rollbackAndReturn env db
      [⟨.BeginTransaction, .ok⟩, ⟨.GetStockByMaterialAndLocation, .ok⟩,
       ⟨.CreateCheckRecord, .ok⟩, ⟨.UpdateStock, .ok⟩, ⟨.CommitTransaction, .fail e⟩]
      (.wrap "failed to commit transaction" e)
  | .ok committed =>
    ⟨.returned none,
     [⟨.BeginTransaction, .ok⟩, ⟨.GetStockByMaterialAndLocation, .ok⟩,
      ⟨.CreateCheckRecord, .ok⟩, ⟨.UpdateStock, .ok⟩, ⟨.CommitTransaction, .ok⟩],
     committed⟩

/-- The effect of `ProcessBatchInventoryCheck`: the `errors` slice as filled so
far, the panic that aborted the loop if one propagated, the store calls of
all items, and the committed tables. -/
structure BatchRun where
  errors : List (Option Error)
  panic : Option String
  calls : List Call
  db : Tables
deriving DecidableEq, Repr

/-- `ProcessBatchInventoryCheck`: the items in order, each through
`ProcessInventoryCheck` on the tables the previous ones left; `world i` is the
store behaviour during item `i`. A propagating panic ends the loop. -/
def ProcessBatchInventoryCheck (world : Nat → Env) (db : Tables) :
    List InventoryCheckInput → BatchRun
  | [] => ⟨[], none, [], db⟩
  | input :: rest =>
    let r := ProcessInventoryCheck (world 0) db input
    match r.result with
    | .panicked p => ⟨[], some p, r.calls, r.db⟩
    | .returned err =>
      let b := ProcessBatchInventoryCheck (fun i => world (i + 1)) r.db rest
      ⟨err :: b.errors, b.panic, r.calls ++ b.calls, b.db⟩

/-! ## Vocabulary of the statements -/

/-- The validation rules in the words of the specification. -/
def ValidInput (input : InventoryCheckInput) : Prop :=
  input.CheckerID ≠ "" ∧ input.LocationCode ≠ "" ∧ input.MaterialCode ≠ "" ∧
  0 ≤ input.ActualQuantity

instance (input : InventoryCheckInput) : Decidable (ValidInput input) := by
  unfold ValidInput; infer_instance

/-- The record row a successful check stores: the record the service built,
under the next key of the record table and stamped by the store. -/
def storedRecord (env : Env) (db : Tables) (input : InventoryCheckInput) : InventoryCheckRecord :=
  { newRecord env input (firstStock db.stocks input.MaterialCode input.LocationCode) with
    ID := nextID (db.records.map (·.ID))
    CreatedAt := env.storeNow
    UpdatedAt := env.storeNow }

/-- The five calls of a committed check. -/
def committedCalls : List Call :=
  [⟨.BeginTransaction, .ok⟩, ⟨.GetStockByMaterialAndLocation, .ok⟩,
   ⟨.CreateCheckRecord, .ok⟩, ⟨.UpdateStock, .ok⟩, ⟨.CommitTransaction, .ok⟩]

/-- The steps of an open transaction that can fail. -/
inductive Step where
  | lookup
  | record
  | stock
  | commit
deriving DecidableEq, Repr

/-- The repository operation of a step. -/
def Step.op : Step → Op
  | .lookup => .GetStockByMaterialAndLocation
  | .record => .CreateCheckRecord
  | .stock => .UpdateStock
  | .commit => .CommitTransaction

/-- The message the service wraps a failure of the step in. -/
def Step.msg : Step → String
  | .lookup => "failed to fetch stock"
  | .record => "failed to create check record"
  | .stock => "failed to update stock"
  | .commit => "failed to commit transaction"

/-- The successful calls that precede a step. -/
def Step.before : Step → List Call
  | .lookup => committedCalls.take 1
  | .record => committedCalls.take 2
  | .stock => committedCalls.take 3
  | .commit => committedCalls.take 4

/-- The possible runs of `ProcessInventoryCheck`: rejected input, transaction
not opened, a failed step followed by a rollback, the committed run, or a run
in which some store call panicked. -/
inductive RunShape (env : Env) (db : Tables) (input : InventoryCheckInput) (r : Run) : Prop where
  | invalid (err : Error) (hv : validateInput input = some err)
      (hr : r = ⟨.returned (some (.wrap "input validation failed" err)), [], db⟩)
  | unopened (hv : validateInput input = none) (e : Error) (hb : env.begin = .fail e)
      (hr : r = ⟨.returned (some (.wrap "failed to begin transaction" e)),
                 [⟨.BeginTransaction, .fail e⟩], db⟩)
  | failed (hv : validateInput input = none) (hb : env.begin = .ok) (st : Step) (e : Error)
      (o : Outcome) (ho : o = .ok ∨ ∃ e0, o = .fail e0)
      (hr : r = ⟨.returned (some (.wrap st.msg e)),
                 st.before ++ [⟨st.op, .fail e⟩, ⟨.RollbackTransaction, o⟩], db⟩)
  | committed (hv : validateInput input = none) (hb : env.begin = .ok) (ss : List Stock)
      (hs : saveStock env.storeNow db.stocks
        (newStock input (firstStock db.stocks input.MaterialCode input.LocationCode)) = .ok ss)
      (hr : r = ⟨.returned none, committedCalls, ⟨ss, db.records ++ [storedRecord env db input]⟩⟩)
  | panic (hv : validateInput input = none) (hp : ¬ env.NoPanic) (hdb : r.db = db)
      (hres : r.result = .returned none ∨ ∃ p, r.result = .panicked p)
      (hcall : ∃ c ∈ r.calls, ∃ p, c.outcome = .fault p)

/-- The store holds no balance for the pair. -/
def NoBalance (db : Tables) (m l : String) : Prop :=
  ∀ s ∈ db.stocks, ¬ (s.MaterialCode = m ∧ s.LocationCode = l)

instance (db : Tables) (m l : String) : Decidable (NoBalance db m l) := by
  unfold NoBalance; infer_instance

/-! ## Concrete stores and inputs -/

/-- A store whose balance for (M1, L1) is negative, as a write from outside the
engine can leave it. -/
def negativeBalanceTables : Tables :=
  ⟨[⟨1, "M1", "L1", -1, 3, 3⟩], []⟩

/-- A count of the largest Go `int` for (M1, L1). -/
def largestCountInput : InventoryCheckInput :=
  ⟨"u1", "L1", "M1", 9223372036854775807⟩

/-- A store that refuses the stock write with the error `e` and lets every
other call run. -/
def Env.stockWriteFails (e : Error) : Env :=
  { Env.allOk 7 9 with update := .fail e }

/-- A store whose stock lookup panics with `p`; every other call runs. -/
def Env.lookupPanics (p : String) : Env :=
  { Env.allOk 7 9 with get := .fault p }

/-- A store whose record write panics with `p`; every other call runs. -/
def Env.recordWritePanics (p : String) : Env :=
  { Env.allOk 7 9 with create := .fault p }

/-- A store whose stock write panics with `p`; every other call runs. -/
def Env.stockWritePanics (p : String) : Env :=
  { Env.allOk 7 9 with update := .fault p }

/-- A store that refuses the stock write of the second item of a batch and
lets every other call run. -/
def secondItemFails : Nat → Env :=
  fun i => if i = 1 then Env.stockWriteFails (.base "disk full") else Env.allOk 7 9

/-- Three counts: (M1, L1) 50, (M2, L1) 7, (M1, L1) 45. -/
def threeCounts : List InventoryCheckInput :=
  [⟨"u1", "L1", "M1", 50⟩, ⟨"u1", "L1", "M2", 7⟩, ⟨"u2", "L1", "M1", 45⟩]

/-- The store behaviour of a batch from which item `j` was removed: the
behaviours of the other items, in order. -/
def eraseWorld (world : Nat → Env) (j : Nat) : Nat → Env :=
  fun i => if i < j then world i else world (i + 1)

/-! ## Store invariants -/

/-- The primary key of the stock table: no two rows share an ID. -/
def DistinctKeys (db : Tables) : Prop := (db.stocks.map (·.ID)).Nodup

instance (db : Tables) : Decidable (DistinctKeys db) := by
  unfold DistinctKeys; infer_instance

/-- At most one stock balance per (materialCode, locationCode) pair. -/
def UniqueBalances (db : Tables) : Prop :=
  (db.stocks.map (fun s => (s.MaterialCode, s.LocationCode))).Nodup

instance (db : Tables) : Decidable (UniqueBalances db) := by
  unfold UniqueBalances; infer_instance

/-- The identity of a balance row: its key and its pair. -/
def Stock.identity (s : Stock) : Nat × String × String := (s.ID, s.MaterialCode, s.LocationCode)

/-- Every stock balance has a quantity of at least 0. -/
def NonNegativeStock (db : Tables) : Prop := ∀ s ∈ db.stocks, 0 ≤ s.Quantity

instance (db : Tables) : Decidable (NonNegativeStock db) := by
  unfold NonNegativeStock; infer_instance

/-- Every check record shows a stock quantity and an actual quantity of at
least 0. -/
def NonNegativeRecords (db : Tables) : Prop :=
  ∀ r ∈ db.records, 0 ≤ r.StockQuantity ∧ 0 ≤ r.ActualQuantity

instance (db : Tables) : Decidable (NonNegativeRecords db) := by
  unfold NonNegativeRecords; infer_instance

/-- The tables the engine alone can produce from an empty store: single checks
and batches, with any inputs and under any store behaviour. -/
inductive Reachable : Tables → Prop where
  | empty : Reachable ⟨[], []⟩
  | check (env : Env) (db : Tables) (input : InventoryCheckInput) (h : Reachable db) :
      Reachable (ProcessInventoryCheck env db input).db
  | batch (world : Nat → Env) (db : Tables) (inputs : List InventoryCheckInput)
      (h : Reachable db) : Reachable (ProcessBatchInventoryCheck world db inputs).db

/-- A store with the balance 50 of (M1, L1) and the balance 7 of (M2, L1). -/
def twoBalances : Tables :=
  ⟨[⟨1, "M1", "L1", 50, 3, 3⟩, ⟨2, "M2", "L1", 7, 4, 4⟩], []⟩

/-- The tables after the first count of the specification scenario: 50 of
(M1, L1) by u1 on an empty store. -/
def afterFirstCount : Tables :=
  (ProcessInventoryCheck (Env.allOk 7 9) ⟨[], []⟩ ⟨"u1", "L1", "M1", 50⟩).db

/-- The tables after a first count of 50 of (M1, L1) on an empty store whose
stock write panics. -/
def afterPanickedCount : Tables :=
  (ProcessInventoryCheck (Env.stockWritePanics "nil pointer dereference") ⟨[], []⟩
    ⟨"u1", "L1", "M1", 50⟩).db

/-! ## HTTP layer (`internal/api/dto`, `internal/api/handlers`)

The handler is embedded over a model of gin's `ShouldBindJSON`: decoding by
`encoding/json` into the request struct, then the `binding` tags checked by
the validator (`required` fails on the zero value of the field's type, `min=0`
on a value below 0). -/

/-- A JSON value, as far as decoding into a string or an int field tells
values apart: `integer` is a number literal without fraction or exponent,
`fraction` any other number literal. -/
inductive JsonValue where
  | null
  | bool (b : Bool)
  | integer (n : Int)
  | fraction
  | string (s : String)
  | array
  | object
deriving DecidableEq, Repr

/-- The body of an upload request: not a JSON object at all, or an object
with the values of the four keys the request struct declares (`none` for a
missing key). -/
inductive RequestBody where
  | malformed
  | object (checker_id location_code material_code actual_quantity : Option JsonValue)
deriving DecidableEq, Repr

/-- The payload type `dto.InventoryCheckRequest`. -/
structure InventoryCheckRequest where
  CheckerID : String
  LocationCode : String
  MaterialCode : String
  ActualQuantity : Int
deriving DecidableEq, Repr

/-- The response type `dto.CommonResponse`. -/
structure CommonResponse where
  Code : Int
  Message : String
deriving DecidableEq, Repr

/-- `dto.SuccessResponse`. -/
def SuccessResponse : CommonResponse := { Code := 0, Message := "success" }

/-- `dto.ErrorResponse`. -/
def ErrorResponse (message : String) : CommonResponse := { Code := -1, Message := message }

/-- The errors of binding: the body is not a JSON object, a value does not fit
the type of its field, or binding tags failed (field and tag of each). -/
inductive BindError where
  | notAnObject
  | typeMismatch (field : String)
  | validation (failures : List (String × String))
deriving DecidableEq, Repr

/-- Decoding of a JSON value into a Go string field: a missing key or `null`
leaves the zero value, a string is taken, anything else is a type error. -/
def decodeString (field : String) : Option JsonValue → Except BindError String
  | none => .ok ""
  | some .null => .ok ""
  | some (.string s) => .ok s
  | some _ => .error (.typeMismatch field)

/-- Decoding of a JSON value into a Go int field: a missing key or `null`
leaves the zero value, an integer literal within the range of int is taken,
anything else is a type error. -/
def decodeInt (field : String) : Option JsonValue → Except BindError Int
  | none => .ok 0
  | some .null => .ok 0
  | some (.integer n) => if IsGoInt n then .ok n else .error (.typeMismatch field)
  | some _ => .error (.typeMismatch field)

/-- The step `json.Unmarshal` of binding. A body with a type error is rejected;
which of several type errors is reported follows the order of the keys in the
document, which the body model does not keep, so the error named here is the
first in the order of the struct fields. -/
def decodeRequest : RequestBody → Except BindError InventoryCheckRequest
  | .malformed => .error .notAnObject
  | .object c l m q =>
    match decodeString "checker_id" c with
    | .error e => .error e
    | .ok checker =>
    match decodeString "location_code" l with
    | .error e => .error e
    | .ok location =>
    match decodeString "material_code" m with
    | .error e => .error e
    | .ok material =>
    match decodeInt "actual_quantity" q with
    | .error e => .error e
    | .ok quantity => .ok ⟨checker, location, material, quantity⟩

/-- The binding tags of `InventoryCheckRequest` as the validator checks them:
`required` on every field, then `min=0` on ActualQuantity. -/
def validateRequest (req : InventoryCheckRequest) : List (String × String) :=
  (if req.CheckerID = "" then [("CheckerID", "required")] else []) ++
  (if req.LocationCode = "" then [("LocationCode", "required")] else []) ++
  (if req.MaterialCode = "" then [("MaterialCode", "required")] else []) ++
  (if req.ActualQuantity = 0 then [("ActualQuantity", "required")]
   else if req.ActualQuantity < 0 then [("ActualQuantity", "min")] else [])

/-- The gin call `c.ShouldBindJSON(&req)`: decode, then validate. -/
def ShouldBindJSON (body : RequestBody) : Except BindError InventoryCheckRequest :=
  match decodeRequest body with
  | .error e => .error e
  | .ok req =>
    if validateRequest req = [] then .ok req else .error (.validation (validateRequest req))

/-- What one `UploadCheck` call does: the HTTP status and JSON body it writes,
and the inputs it passed to `ProcessInventoryCheck`. -/
structure HandlerRun where
  status : Nat
  body : CommonResponse
  serviceCalls : List InventoryCheckInput
deriving DecidableEq, Repr

/-- `InventoryHandler.UploadCheck` over a service (`service input` is the error
`ProcessInventoryCheck` returns, `none` for nil) and the text gin gives a
binding error (`err.Error()`). -/
def UploadCheck (service : InventoryCheckInput → Option Error) (errorText : BindError → String)
    (body : RequestBody) : HandlerRun :=
  match ShouldBindJSON body with
  | .error err => ⟨400, ErrorResponse ("Invalid request: " ++ errorText err), []⟩
  | .ok req =>
    let serviceInput : InventoryCheckInput :=
      { CheckerID := req.CheckerID, LocationCode := req.LocationCode,
        MaterialCode := req.MaterialCode, ActualQuantity := req.ActualQuantity }
    match service serviceInput with
    | some err =>
      ⟨500, ErrorResponse ("Failed to process inventory check: " ++ err.message), [serviceInput]⟩
    | none => ⟨200, SuccessResponse, [serviceInput]⟩

/-- The payload of the handler test `TestUploadCheck_Success` with the actual
quantity `q`. -/
def uploadBody (q : JsonValue) : RequestBody :=
  .object (some (.string "user123")) (some (.string "LOC001")) (some (.string "MAT001")) (some q)

/-! ## Fault paths -/

/-- How the call ends once the deferred function runs its rollback, the
`k`-th of the run: it returns `nil`, unless that rollback panics. -/
def recoveredResult (env : Env) (k : Nat) : Result :=
  match env.rollback k with
  | .ok => .returned none
  | .fail _ => .returned none
  | .fault p => .panicked p

/-- The rollback calls after a step that returned an error: the one of the
error branch and, when it panics, the one of the deferred function. -/
def rollbackCalls (env : Env) : List Call :=
  match env.rollback 0 with
  | .ok => [⟨.RollbackTransaction, .ok⟩]
  | .fail e => [⟨.RollbackTransaction, .fail e⟩]
  | .fault p => [⟨.RollbackTransaction, .fault p⟩, ⟨.RollbackTransaction, env.rollback 1⟩]

/-- How the call ends after a step that returned an error: with the wrapped
error `err`, unless the rollback of the error branch panics and the deferred
function takes over. -/
def rollbackResult (env : Env) (err : Error) : Result :=
  match env.rollback 0 with
  | .ok => .returned (some err)
  | .fail _ => .returned (some err)
  | .fault _ => recoveredResult env 1

/-- The runs of `ProcessInventoryCheck` under every store behaviour, call by
call: rejected input; BeginTransaction failed or panicked; a step returned an
error; a step panicked; or the committed run. -/
inductive RunForm (env : Env) (db : Tables) (input : InventoryCheckInput) (r : Run) : Prop where
  | invalid (err : Error) (hv : validateInput input = some err)
      (hr : r = ⟨.returned (some (.wrap "input validation failed" err)), [], db⟩)
  | unopened (hv : validateInput input = none) (e : Error) (hb : env.begin = .fail e)
      (hr : r = ⟨.returned (some (.wrap "failed to begin transaction" e)),
                 [⟨.BeginTransaction, .fail e⟩], db⟩)
  | beginPanicked (hv : validateInput input = none) (p : String) (hb : env.begin = .fault p)
      (hr : r = ⟨.panicked p, [⟨.BeginTransaction, .fault p⟩], db⟩)
  | failed (hv : validateInput input = none) (hb : env.begin = .ok) (st : Step) (e : Error)
      (hr : r = ⟨rollbackResult env (.wrap st.msg e),
                 st.before ++ ⟨st.op, .fail e⟩ :: rollbackCalls env, db⟩)
  | faulted (hv : validateInput input = none) (hb : env.begin = .ok) (st : Step) (p : String)
      (hr : r = ⟨recoveredResult env 0,
                 st.before ++ [⟨st.op, .fault p⟩, ⟨.RollbackTransaction, env.rollback 0⟩], db⟩)
  | committed (hv : validateInput input = none) (hb : env.begin = .ok) (ss : List Stock)
      (hs : saveStock env.storeNow db.stocks
        (newStock input (firstStock db.stocks input.MaterialCode input.LocationCode)) = .ok ss)
      (hr : r = ⟨.returned none, committedCalls, ⟨ss, db.records ++ [storedRecord env db input]⟩⟩)

/-- The store behaviour `env` with a first rollback that panics with `p`; the
second rollback runs. -/
def Env.withPanickingRollback (env : Env) (p : String) : Env :=
  { env with rollback := fun k => if k = 0 then .fault p else .ok }

/-- A store that refuses the stock lookup with the error `e` and lets every
other call run. -/
def Env.lookupFails (e : Error) : Env :=
  { Env.allOk 7 9 with get := .fail e }

/-- The tables without their keys: every ID set to 0. -/
def Tables.withoutKeys (db : Tables) : Tables :=
  ⟨db.stocks.map (fun s => { s with ID := 0 }), db.records.map (fun r => { r with ID := 0 })⟩

/-! ## Basic facts about the store model -/

theorem validateInput_eq_none_iff (input : InventoryCheckInput) :
    validateInput input = none ↔ ValidInput input := by
  unfold validateInput ValidInput
  by_cases h1 : input.CheckerID = "" <;> by_cases h2 : input.LocationCode = "" <;>
    by_cases h3 : input.MaterialCode = "" <;> by_cases h4 : input.ActualQuantity < 0 <;>
    simp [h1, h2, h3, h4]
  all_goals omega

theorem le_foldr_max (ids : List Nat) : ∀ x ∈ ids, x ≤ ids.foldr max 0 := by
  induction ids with
  | nil => simp
  | cons a t ih =>
    intro x hx
    simp only [List.mem_cons] at hx
    simp only [List.foldr_cons]
    rcases hx with rfl | hx
    · exact le_max_left _ _
    · exact le_trans (ih x hx) (le_max_right _ _)

theorem lt_nextID (ids : List Nat) : ∀ x ∈ ids, x < nextID ids := by
  intro x hx
  have := le_foldr_max ids x hx
  unfold nextID
  omega

theorem wrapInt_of_isGoInt (x : Int) (h : IsGoInt x) : wrapInt x = x := by
  unfold IsGoInt at h
  unfold wrapInt
  omega

theorem createRecord_zero (now : Nat) (t : List InventoryCheckRecord) (r : InventoryCheckRecord)
    (h : r.ID = 0) :
    createRecord now t r =
      .ok (t ++ [{ r with ID := nextID (t.map (·.ID)), CreatedAt := stamp r.CreatedAt now,
                          UpdatedAt := stamp r.UpdatedAt now }]) := by
  unfold createRecord
  have hfresh : (t.any fun x => x.ID == nextID (t.map (·.ID))) = false := by
    rw [List.any_eq_false]
    intro x hx
    have := lt_nextID (t.map (·.ID)) x.ID (List.mem_map_of_mem _ hx)
    simp
    omega
  simp [h, hfresh]

theorem saveStock_absent (now : Nat) (t : List Stock) (input : InventoryCheckInput)
    (h : firstStock t input.MaterialCode input.LocationCode = none) :
    saveStock now t (newStock input none) =
      .ok (t ++ [{ ID := nextID (t.map (·.ID)), MaterialCode := input.MaterialCode,
                   LocationCode := input.LocationCode, Quantity := input.ActualQuantity,
                   CreatedAt := now, UpdatedAt := now }]) := by
  unfold saveStock insertStock newStock
  have hfresh : (t.any fun x => x.ID == nextID (t.map (·.ID))) = false := by
    rw [List.any_eq_false]
    intro x hx
    have := lt_nextID (t.map (·.ID)) x.ID (List.mem_map_of_mem _ hx)
    simp
    omega
  have hpair : (t.any fun x => x.MaterialCode == input.MaterialCode &&
      x.LocationCode == input.LocationCode) = false := by
    unfold firstStock at h
    rw [List.find?_eq_none] at h
    rw [List.any_eq_false]
    intro x hx
    simpa using h x hx
  simp [hfresh, hpair, stamp]

/-! ## The shape of a run -/

theorem recovered_db (env : Env) (db : Tables) (calls : List Call) (k : Nat) :
    (recovered env db calls k).db = db := by
  unfold recovered; split <;> rfl

theorem rollbackAndReturn_db (env : Env) (db : Tables) (calls : List Call) (err : Error) :
    (rollbackAndReturn env db calls err).db = db := by
  unfold rollbackAndReturn; split <;> first | rfl | exact recovered_db _ _ _ _

theorem mem_calls_recovered (env : Env) (db : Tables) (calls : List Call) (k : Nat) (c : Call)
    (h : c ∈ calls) : c ∈ (recovered env db calls k).calls := by
  unfold recovered; split <;> simp [h]

theorem mem_calls_rollbackAndReturn (env : Env) (db : Tables) (calls : List Call) (err : Error)
    (c : Call) (h : c ∈ calls) : c ∈ (rollbackAndReturn env db calls err).calls := by
  unfold rollbackAndReturn
  split
  · simp [h]
  · simp [h]
  · exact mem_calls_recovered _ _ _ _ _ (by simp [h])

theorem recovered_result (env : Env) (db : Tables) (calls : List Call) (k : Nat) :
    (recovered env db calls k).result = .returned none ∨
      ∃ p, (recovered env db calls k).result = .panicked p := by
  unfold recovered; split <;> simp

theorem recovered_shape (env : Env) (db : Tables) (input : InventoryCheckInput)
    (calls : List Call) (k : Nat) (hv : validateInput input = none) (hp : ¬ env.NoPanic)
    (hcall : ∃ c ∈ calls, ∃ p, c.outcome = .fault p) :
    RunShape env db input (recovered env db calls k) := by
  obtain ⟨c, hc, hcp⟩ := hcall
  exact .panic hv hp (recovered_db _ _ _ _) (recovered_result _ _ _ _)
    ⟨c, mem_calls_recovered _ _ _ _ _ hc, hcp⟩

theorem rollbackAndReturn_shape (env : Env) (db : Tables) (input : InventoryCheckInput)
    (st : Step) (e : Error) (hv : validateInput input = none) (hb : env.begin = .ok) :
    RunShape env db input
      (rollbackAndReturn env db (st.before ++ [⟨st.op, .fail e⟩]) (.wrap st.msg e)) := by
  unfold rollbackAndReturn RollbackTransaction
  cases hr : env.rollback 0 with
  | ok => exact .failed hv hb st e .ok (Or.inl rfl) (by simp)
  | fail e0 => exact .failed hv hb st e (.fail e0) (Or.inr ⟨e0, rfl⟩) (by simp)
  | fault p =>
    refine recovered_shape _ _ _ _ _ hv ?_ ⟨⟨.RollbackTransaction, .fault p⟩, by simp, p, rfl⟩
    intro hnp
    exact hnp.2.2.2.2.2 0 p hr

/-- Every run of `ProcessInventoryCheck` has one of the five shapes. -/
theorem run_cases (env : Env) (db : Tables) (input : InventoryCheckInput) :
    RunShape env db input (ProcessInventoryCheck env db input) := by
  unfold ProcessInventoryCheck
  cases hv : validateInput input with
  | some err => exact .invalid err hv rfl
  | none =>
    simp only
    unfold BeginTransaction
    cases hb : env.begin with
    | fault p =>
      exact .panic hv (fun hnp => hnp.1 p hb) rfl (Or.inr ⟨p, rfl⟩)
        ⟨⟨.BeginTransaction, .fault p⟩, by simp, p, rfl⟩
    | fail e => exact .unopened hv e hb rfl
    | ok =>
      simp only
      unfold GetStockByMaterialAndLocation
      cases hg : env.get with
      | fault p =>
        exact recovered_shape _ _ _ _ _ hv (fun hnp => hnp.2.1 p hg)
          ⟨⟨.GetStockByMaterialAndLocation, .fault p⟩, by simp, p, rfl⟩
      | fail e => exact rollbackAndReturn_shape env db input .lookup e hv hb
      | ok =>
        simp only
        unfold CreateCheckRecord
        cases hc : env.create with
        | fault p =>
          exact recovered_shape _ _ _ _ _ hv (fun hnp => hnp.2.2.1 p hc)
            ⟨⟨.CreateCheckRecord, .fault p⟩, by simp, p, rfl⟩
        | fail e => exact rollbackAndReturn_shape env db input .record e hv hb
        | ok =>
          simp only
          rw [createRecord_zero _ _ _ rfl]
          simp only
          unfold UpdateStock
          cases hu : env.update with
          | fault p =>
            exact recovered_shape _ _ _ _ _ hv (fun hnp => hnp.2.2.2.1 p hu)
              ⟨⟨.UpdateStock, .fault p⟩, by simp, p, rfl⟩
          | fail e => exact rollbackAndReturn_shape env db input .stock e hv hb
          | ok =>
            simp only
            cases hs : saveStock env.storeNow db.stocks
                (newStock input (firstStock db.stocks input.MaterialCode input.LocationCode)) with
            | error e => exact rollbackAndReturn_shape env db input .stock e hv hb
            | ok ss =>
              simp only
              unfold CommitTransaction
              cases hm : env.commit with
              | fault p =>
                exact recovered_shape _ _ _ _ _ hv (fun hnp => hnp.2.2.2.2.1 p hm)
                  ⟨⟨.CommitTransaction, .fault p⟩, by simp, p, rfl⟩
              | fail e => exact rollbackAndReturn_shape env db input .commit e hv hb
              | ok =>
                refine .committed hv hb ss hs ?_
                simp [committedCalls, storedRecord, newRecord, stamp]

theorem recovered_eq (env : Env) (db : Tables) (calls : List Call) (k : Nat) :
    recovered env db calls k =
      ⟨recoveredResult env k, calls ++ [⟨.RollbackTransaction, env.rollback k⟩], db⟩ := by
  unfold recovered recoveredResult RollbackTransaction
  cases env.rollback k <;> rfl

theorem rollbackAndReturn_eq (env : Env) (db : Tables) (calls : List Call) (err : Error) :
    rollbackAndReturn env db calls err =
      ⟨rollbackResult env err, calls ++ rollbackCalls env, db⟩ := by
  unfold rollbackAndReturn rollbackResult rollbackCalls RollbackTransaction
  cases h : env.rollback 0 with
  | ok => rfl
  | fail e => rfl
  | fault p =>
    simp only
    rw [recovered_eq]
    simp

/-- Every run of `ProcessInventoryCheck`, under every store behaviour, has one
of the six forms. -/
theorem run_forms (env : Env) (db : Tables) (input : InventoryCheckInput) :
    RunForm env db input (ProcessInventoryCheck env db input) := by
  unfold ProcessInventoryCheck
  cases hv : validateInput input with
  | some err => exact .invalid err hv rfl
  | none =>
    simp only
    unfold BeginTransaction
    cases hb : env.begin with
    | fault p => exact .beginPanicked hv p hb rfl
    | fail e => exact .unopened hv e hb rfl
    | ok =>
      simp only
      unfold GetStockByMaterialAndLocation
      cases hg : env.get with
      | fault p => exact .faulted hv hb .lookup p (recovered_eq _ _ _ _)
      | fail e => exact .failed hv hb .lookup e (rollbackAndReturn_eq _ _ _ _)
      | ok =>
        simp only
        unfold CreateCheckRecord
        cases hc : env.create with
        | fault p => exact .faulted hv hb .record p (recovered_eq _ _ _ _)
        | fail e => exact .failed hv hb .record e (rollbackAndReturn_eq _ _ _ _)
        | ok =>
          simp only
          rw [createRecord_zero _ _ _ rfl]
          simp only
          unfold UpdateStock
          cases hu : env.update with
          | fault p => exact .faulted hv hb .stock p (recovered_eq _ _ _ _)
          | fail e => exact .failed hv hb .stock e (rollbackAndReturn_eq _ _ _ _)
          | ok =>
            simp only
            cases hs : saveStock env.storeNow db.stocks
                (newStock input (firstStock db.stocks input.MaterialCode input.LocationCode)) with
            | error e => exact .failed hv hb .stock e (rollbackAndReturn_eq _ _ _ _)
            | ok ss =>
              simp only
              unfold CommitTransaction
              cases hm : env.commit with
              | fault p => exact .faulted hv hb .commit p (recovered_eq _ _ _ _)
              | fail e => exact .failed hv hb .commit e (rollbackAndReturn_eq _ _ _ _)
              | ok =>
                refine .committed hv hb ss hs ?_
                simp [committedCalls, storedRecord, newRecord, stamp]

/-- The successful calls before a step are successful. -/
theorem before_ok (st : Step) : ∀ c ∈ st.before, c.outcome = .ok := by
  intro c hc
  cases st <;> simp [Step.before, committedCalls] at hc
  · subst hc; rfl
  · rcases hc with rfl | rfl <;> rfl
  · rcases hc with rfl | rfl | rfl <;> rfl
  · rcases hc with rfl | rfl | rfl | rfl <;> rfl

/-- The rollback calls are rollbacks, the first with the outcome of the
first rollback of the run. -/
theorem rollbackCalls_spec (env : Env) :
    (∀ c ∈ rollbackCalls env, c.op = .RollbackTransaction) ∧
    ∃ tail, rollbackCalls env = ⟨.RollbackTransaction, env.rollback 0⟩ :: tail := by
  unfold rollbackCalls
  cases h : env.rollback 0 with
  | ok => exact ⟨by simp, [], rfl⟩
  | fail e => exact ⟨by simp, [], rfl⟩
  | fault p =>
    refine ⟨?_, _, rfl⟩
    intro c hc
    simp at hc
    rcases hc with rfl | rfl <;> rfl

theorem rollbackCalls_of_returned (env : Env) (h : ∀ p, env.rollback 0 ≠ .fault p) :
    rollbackCalls env = [⟨.RollbackTransaction, env.rollback 0⟩] := by
  unfold rollbackCalls
  cases hr : env.rollback 0 with
  | ok => rfl
  | fail e => rfl
  | fault p => exact absurd hr (h p)

theorem rollbackResult_of_returned (env : Env) (err : Error)
    (h : ∀ p, env.rollback 0 ≠ .fault p) : rollbackResult env err = .returned (some err) := by
  unfold rollbackResult
  cases hr : env.rollback 0 with
  | ok => rfl
  | fail e => rfl
  | fault p => exact absurd hr (h p)

theorem rollbackResult_of_fault (env : Env) (err : Error) (p : String)
    (h : env.rollback 0 = .fault p) : rollbackResult env err = recoveredResult env 1 := by
  unfold rollbackResult
  rw [h]

theorem recoveredResult_ne_error (env : Env) (k : Nat) (err : Error) :
    recoveredResult env k ≠ .returned (some err) := by
  unfold recoveredResult
  cases env.rollback k <;> simp

/-- A run whose log shows the call of step `st` failing with `e` is the run
that stops at that step and rolls back. -/
theorem run_of_failed_call (env : Env) (db : Tables) (input : InventoryCheckInput) (st : Step)
    (e : Error) (h : ⟨st.op, .fail e⟩ ∈ (ProcessInventoryCheck env db input).calls) :
    ProcessInventoryCheck env db input =
      ⟨rollbackResult env (.wrap st.msg e),
       st.before ++ ⟨st.op, .fail e⟩ :: rollbackCalls env, db⟩ := by
  have hform := run_forms env db input
  generalize ProcessInventoryCheck env db input = r at hform h ⊢
  rcases hform with ⟨err, hv, hr⟩ | ⟨hv, e0, hb, hr⟩ | ⟨hv, p, hb, hr⟩ | ⟨hv, hb, st0, e0, hr⟩ |
    ⟨hv, hb, st0, p, hr⟩ | ⟨hv, hb, ss, hs, hr⟩
  · subst hr; simp at h
  · subst hr; cases st <;> simp [Step.op] at h
  · subst hr; cases st <;> simp [Step.op] at h
  · subst hr
    simp only [List.mem_append, List.mem_cons] at h
    rcases h with h | h | h
    · have := before_ok st0 _ h
      cases this
    · have hst : st0 = st ∧ e0 = e := by
        cases st <;> cases st0 <;> simp [Step.op] at h ⊢ <;> exact h.symm
      obtain ⟨rfl, rfl⟩ := hst
      rfl
    · have := (rollbackCalls_spec env).1 _ h
      cases st <;> simp [Step.op] at this
  · subst hr
    simp only [List.mem_append, List.mem_cons, List.mem_singleton] at h
    rcases h with h | h | h | h
    · have := before_ok st0 _ h
      cases this
    · simp at h
    · cases st <;> simp [Step.op] at h
    · simp at h
  · subst hr; cases st <;> simp [committedCalls, Step.op] at h

/-- A run of a valid input in which every store call succeeded is the
committed run. -/
theorem run_of_calls_ok (env : Env) (db : Tables) (input : InventoryCheckInput)
    (hv : validateInput input = none)
    (hok : ∀ c ∈ (ProcessInventoryCheck env db input).calls, c.outcome = .ok) :
    ∃ ss, saveStock env.storeNow db.stocks
        (newStock input (firstStock db.stocks input.MaterialCode input.LocationCode)) = .ok ss ∧
      ProcessInventoryCheck env db input =
        ⟨.returned none, committedCalls, ⟨ss, db.records ++ [storedRecord env db input]⟩⟩ := by
  have hshape := run_cases env db input
  generalize ProcessInventoryCheck env db input = r at hshape hok ⊢
  rcases hshape with ⟨err, hv0, hr⟩ | ⟨-, e0, hb, hr⟩ | ⟨-, hb, st, e0, o, ho, hr⟩ |
    ⟨-, hb, ss, hs, hr⟩ | ⟨-, hp, hdb, hres, c, hc, p, hcp⟩
  · rw [hv] at hv0; cases hv0
  · subst hr
    have := hok ⟨.BeginTransaction, .fail e0⟩ (by simp)
    cases this
  · subst hr
    have := hok ⟨st.op, .fail e0⟩ (by simp)
    cases this
  · exact ⟨ss, hs, hr⟩
  · have := hok c hc
    rw [hcp] at this
    cases this

/-! ## Lookup and save on the stock table -/

theorem firstStock_eq_none_iff (db : Tables) (m l : String) :
    firstStock db.stocks m l = none ↔ NoBalance db m l := by
  unfold firstStock NoBalance
  rw [List.find?_eq_none]
  simp

theorem firstStock_some (t : List Stock) (m l : String) (s : Stock)
    (h : firstStock t m l = some s) : s ∈ t ∧ s.MaterialCode = m ∧ s.LocationCode = l := by
  unfold firstStock at h
  have hp := List.find?_some h
  have hm := List.mem_of_find?_eq_some h
  simp at hp
  exact ⟨hm, hp.1, hp.2⟩

theorem firstStock_append_new (t : List Stock) (m l : String) (st : Stock)
    (h : firstStock t m l = none) (hm : st.MaterialCode = m) (hl : st.LocationCode = l) :
    firstStock (t ++ [st]) m l = some st := by
  unfold firstStock at h ⊢
  rw [List.find?_append, h]
  simp [hm, hl]

theorem firstStock_map_update (t : List Stock) (m l : String) (s st : Stock)
    (h : firstStock t m l = some s) (hm : st.MaterialCode = m) (hl : st.LocationCode = l) :
    firstStock (t.map (fun x => if x.ID = s.ID then st else x)) m l = some st := by
  unfold firstStock at h ⊢
  induction t with
  | nil => simp at h
  | cons a t ih =>
    simp only [List.map_cons]
    by_cases ha : a.ID = s.ID
    · simp [ha, hm, hl]
    · simp only [ha, if_false]
      rw [List.find?_cons] at h ⊢
      by_cases hp : (a.MaterialCode == m && a.LocationCode == l) = true
      · simp only [hp] at h
        exact absurd (by rw [Option.some.inj h]) ha
      · simp only [hp] at h ⊢
        exact ih h

theorem saveStock_found (now : Nat) (t : List Stock) (input : InventoryCheckInput) (s : Stock)
    (ss : List Stock)
    (h : firstStock t input.MaterialCode input.LocationCode = some s)
    (hs : saveStock now t (newStock input (some s)) = .ok ss) :
    s.ID ≠ 0 ∧
    ss = t.map (fun x => if x.ID = s.ID
      then { s with Quantity := input.ActualQuantity, UpdatedAt := now } else x) := by
  obtain ⟨hmem, hm, hl⟩ := firstStock_some _ _ _ _ h
  have hid : (t.any fun x => x.ID == s.ID) = true := by
    rw [List.any_eq_true]; exact ⟨s, hmem, by simp⟩
  have hpair : (t.any fun x => x.MaterialCode == s.MaterialCode &&
      x.LocationCode == s.LocationCode) = true := by
    rw [List.any_eq_true]; exact ⟨s, hmem, by simp⟩
  unfold saveStock newStock at hs
  by_cases h0 : s.ID = 0
  · simp [h0, insertStock, hpair] at hs
  · simp [h0, hid] at hs
    exact ⟨h0, hs.symm⟩

/-- A save of the overwritten value of a found row with a non-zero key updates
that row in place. -/
theorem saveStock_present (now : Nat) (t : List Stock) (input : InventoryCheckInput) (s : Stock)
    (h : firstStock t input.MaterialCode input.LocationCode = some s) (hid : s.ID ≠ 0) :
    saveStock now t (newStock input (some s)) =
      .ok (t.map (fun x => if x.ID = s.ID
        then { s with Quantity := input.ActualQuantity, UpdatedAt := now } else x)) := by
  obtain ⟨hmem, -, -⟩ := firstStock_some _ _ _ _ h
  have hany : (t.any fun x => x.ID == s.ID) = true := by
    rw [List.any_eq_true]; exact ⟨s, hmem, by simp⟩
  unfold saveStock newStock
  simp [hid, hany]

/-- When the store lets the five calls of a check run and the balance found,
if any, has a key the sequence handed out (not zero), every store call of a
valid input succeeds. -/
theorem calls_ok_of_store_ok (env : Env) (db : Tables) (input : InventoryCheckInput)
    (hvalid : ValidInput input) (hb : env.begin = .ok) (hg : env.get = .ok)
    (hc : env.create = .ok) (hu : env.update = .ok) (hm : env.commit = .ok)
    (hid : ∀ s, firstStock db.stocks input.MaterialCode input.LocationCode = some s → s.ID ≠ 0) :
    ∀ c ∈ (ProcessInventoryCheck env db input).calls, c.outcome = .ok := by
  have hv := (validateInput_eq_none_iff input).2 hvalid
  have hsave : ∃ ss, saveStock env.storeNow db.stocks
      (newStock input (firstStock db.stocks input.MaterialCode input.LocationCode)) = .ok ss := by
    cases hf : firstStock db.stocks input.MaterialCode input.LocationCode with
    | none => exact ⟨_, saveStock_absent _ _ _ hf⟩
    | some s => exact ⟨_, saveStock_present _ _ _ _ hf (hid s hf)⟩
  obtain ⟨ss, hs⟩ := hsave
  unfold ProcessInventoryCheck
  simp only [hv, BeginTransaction, hb, GetStockByMaterialAndLocation, hg, CreateCheckRecord, hc]
  rw [createRecord_zero _ _ _ rfl]
  simp only [UpdateStock, hu, hs, CommitTransaction, hm]
  intro c hcall
  simp at hcall
  rcases hcall with rfl | rfl | rfl | rfl | rfl <;> rfl

/-! ## Single checks -/

/-- Claim C1: for a valid input and a store without a balance for the input's
material/location pair, when every store call of the run succeeds the check
returns success, appends one record with StockQuantity 0 and Difference equal
to the actual quantity, and adds a new balance row for the pair (a key no
row had) whose Quantity is the actual quantity. -/
theorem first_check_creates_balance (env : Env) (db : Tables) (input : InventoryCheckInput)
    (hvalid : ValidInput input) (hint : IsGoInt input.ActualQuantity)
    (habsent : NoBalance db input.MaterialCode input.LocationCode)
    (hok : ∀ c ∈ (ProcessInventoryCheck env db input).calls, c.outcome = .ok) :
    (ProcessInventoryCheck env db input).result = .returned none ∧
    ∃ record balance,
      (ProcessInventoryCheck env db input).db.records = db.records ++ [record] ∧
      record.StockQuantity = 0 ∧ record.Difference = input.ActualQuantity ∧
      (ProcessInventoryCheck env db input).db.stocks = db.stocks ++ [balance] ∧
      (∀ s ∈ db.stocks, s.ID ≠ balance.ID) ∧
      balance.MaterialCode = input.MaterialCode ∧ balance.LocationCode = input.LocationCode ∧
      balance.Quantity = input.ActualQuantity ∧
      firstStock (ProcessInventoryCheck env db input).db.stocks
        input.MaterialCode input.LocationCode = some balance := by
  have hv := (validateInput_eq_none_iff input).2 hvalid
  have hnone := (firstStock_eq_none_iff db _ _).2 habsent
  obtain ⟨ss, hs, hrun⟩ := run_of_calls_ok env db input hv hok
  rw [hnone, saveStock_absent _ _ _ hnone] at hs
  have hss := (Except.ok.inj hs).symm
  rw [hrun]
  refine ⟨rfl, storedRecord env db input, _, rfl, ?_, ?_, hss, ?_, rfl, rfl, rfl, ?_⟩
  · simp [storedRecord, newRecord, hnone, priorQuantity]
  · simp only [storedRecord, newRecord, hnone, priorQuantity, sub_zero]
    exact wrapInt_of_isGoInt _ hint
  · intro s hs0
    have := lt_nextID (db.stocks.map (·.ID)) s.ID (List.mem_map_of_mem _ hs0)
    simp only
    omega
  · simp only [hss]
    exact firstStock_append_new _ _ _ _ hnone rfl rfl

/-- Witness of C1: the scenario of the specification, material M1 at location
L1 without stock, count 50 by checker u1. -/
theorem first_check_creates_balance_witness :
    (ProcessInventoryCheck (Env.allOk 7 9) ⟨[], []⟩ ⟨"u1", "L1", "M1", 50⟩).result
        = .returned none ∧
    ∃ record balance,
      (ProcessInventoryCheck (Env.allOk 7 9) ⟨[], []⟩ ⟨"u1", "L1", "M1", 50⟩).db.records
        = [] ++ [record] ∧
      record.StockQuantity = 0 ∧ record.Difference = 50 ∧
      (ProcessInventoryCheck (Env.allOk 7 9) ⟨[], []⟩ ⟨"u1", "L1", "M1", 50⟩).db.stocks
        = [] ++ [balance] ∧
      (∀ s ∈ ([] : List Stock), s.ID ≠ balance.ID) ∧
      balance.MaterialCode = "M1" ∧ balance.LocationCode = "L1" ∧
      balance.Quantity = 50 ∧
      firstStock (ProcessInventoryCheck (Env.allOk 7 9) ⟨[], []⟩ ⟨"u1", "L1", "M1", 50⟩).db.stocks
        "M1" "L1" = some balance :=
  first_check_creates_balance (Env.allOk 7 9) ⟨[], []⟩ ⟨"u1", "L1", "M1", 50⟩
    (by decide) (by decide) (by decide) (by decide)

/-- The variance is computed in Go's int and can overflow when the stored
quantity is negative, as only a write from outside the engine can leave it:
with a stored balance of -1 and a count of the largest Go int every store call
succeeds and the check returns success, and the record shows
Difference = -9223372036854775808, not 9223372036854775808. -/
theorem overwrite_difference_overflows :
    ValidInput largestCountInput ∧ IsGoInt largestCountInput.ActualQuantity ∧
    firstStock negativeBalanceTables.stocks largestCountInput.MaterialCode
      largestCountInput.LocationCode = some ⟨1, "M1", "L1", -1, 3, 3⟩ ∧
    (∀ c ∈ (ProcessInventoryCheck (Env.allOk 7 9) negativeBalanceTables largestCountInput).calls,
      c.outcome = .ok) ∧
    (ProcessInventoryCheck (Env.allOk 7 9) negativeBalanceTables largestCountInput).result
      = .returned none ∧
    (ProcessInventoryCheck (Env.allOk 7 9) negativeBalanceTables largestCountInput).db.records.map
      (fun r => (r.StockQuantity, r.Difference)) = [(-1, -9223372036854775808)] ∧
    largestCountInput.ActualQuantity - (-1) ≠ -9223372036854775808 := by
  decide

/-- Claim C2: for a valid input and a store whose lookup finds the balance `s`
of the pair, with a quantity Q that is a stock quantity (a Go int, at least
0), when every store call of the run succeeds the check returns success and
appends one record with StockQuantity = Q and Difference = ActualQuantity - Q
(negative, zero or positive); the balance of the pair afterwards is the same
row (same key, no row added) with Quantity = ActualQuantity, whatever Q was. -/
theorem recheck_overwrites_balance (env : Env) (db : Tables) (input : InventoryCheckInput)
    (s : Stock) (hvalid : ValidInput input) (hint : IsGoInt input.ActualQuantity)
    (hfound : firstStock db.stocks input.MaterialCode input.LocationCode = some s)
    (hq : IsGoInt s.Quantity) (hq0 : 0 ≤ s.Quantity)
    (hok : ∀ c ∈ (ProcessInventoryCheck env db input).calls, c.outcome = .ok) :
    (ProcessInventoryCheck env db input).result = .returned none ∧
    ∃ record balance,
      (ProcessInventoryCheck env db input).db.records = db.records ++ [record] ∧
      record.StockQuantity = s.Quantity ∧
      record.Difference = input.ActualQuantity - s.Quantity ∧
      firstStock (ProcessInventoryCheck env db input).db.stocks
        input.MaterialCode input.LocationCode = some balance ∧
      balance.Quantity = input.ActualQuantity ∧ balance.ID = s.ID ∧
      (ProcessInventoryCheck env db input).db.stocks.length = db.stocks.length := by
  have hv := (validateInput_eq_none_iff input).2 hvalid
  obtain ⟨ss, hs, hrun⟩ := run_of_calls_ok env db input hv hok
  rw [hfound] at hs
  obtain ⟨-, hss⟩ := saveStock_found _ _ _ _ _ hfound hs
  obtain ⟨-, hm, hl⟩ := firstStock_some _ _ _ _ hfound
  have hdiff : (storedRecord env db input).Difference
      = input.ActualQuantity - s.Quantity := by
    simp only [storedRecord, newRecord, hfound, priorQuantity]
    apply wrapInt_of_isGoInt
    have h0 := hvalid.2.2.2
    unfold IsGoInt at hq hint ⊢
    omega
  rw [hrun]
  refine ⟨rfl, storedRecord env db input,
    { s with Quantity := input.ActualQuantity, UpdatedAt := env.storeNow },
    rfl, ?_, hdiff, ?_, rfl, rfl, ?_⟩
  · simp [storedRecord, newRecord, hfound, priorQuantity]
  · simp only [hss]
    exact firstStock_map_update _ _ _ _ _ hfound hm hl
  · simp [hss]

/-- Witness of C2: the balance 50 of (M1, L1) re-counted as 45. -/
theorem recheck_overwrites_balance_witness :
    (ProcessInventoryCheck (Env.allOk 7 9) ⟨[⟨1, "M1", "L1", 50, 3, 3⟩], []⟩
      ⟨"u1", "L1", "M1", 45⟩).result = .returned none ∧
    ∃ record balance,
      (ProcessInventoryCheck (Env.allOk 7 9) ⟨[⟨1, "M1", "L1", 50, 3, 3⟩], []⟩
        ⟨"u1", "L1", "M1", 45⟩).db.records = [] ++ [record] ∧
      record.StockQuantity = 50 ∧
      record.Difference = 45 - 50 ∧
      firstStock (ProcessInventoryCheck (Env.allOk 7 9) ⟨[⟨1, "M1", "L1", 50, 3, 3⟩], []⟩
        ⟨"u1", "L1", "M1", 45⟩).db.stocks "M1" "L1" = some balance ∧
      balance.Quantity = 45 ∧ balance.ID = 1 ∧
      (ProcessInventoryCheck (Env.allOk 7 9) ⟨[⟨1, "M1", "L1", 50, 3, 3⟩], []⟩
        ⟨"u1", "L1", "M1", 45⟩).db.stocks.length = [(⟨1, "M1", "L1", 50, 3, 3⟩ : Stock)].length :=
  recheck_overwrites_balance (Env.allOk 7 9) ⟨[⟨1, "M1", "L1", 50, 3, 3⟩], []⟩
    ⟨"u1", "L1", "M1", 45⟩ ⟨1, "M1", "L1", 50, 3, 3⟩
    (by decide) (by decide) (by decide) (by decide) (by decide) (by decide)

/-- Claim C3, the behaviour of the code: under every store behaviour, a run in
which UpdateStock failed with `e` (CreateCheckRecord has then succeeded: it is
the third call) makes the four calls up to the failed stock write and then
RollbackTransaction,
after which only rollbacks follow, never CommitTransaction, and leaves the
committed tables, records and balances alike, exactly as they were. When that
rollback returns, the check returns the error wrapping `e`. When that
rollback panics, the deferred function recovers and rolls back once more, and
the call returns nil (or the panic of the second rollback propagates): no
error is returned. -/
theorem stock_write_failure_rolls_back (env : Env) (db : Tables) (input : InventoryCheckInput)
    (e : Error)
    (hupdate : ⟨.UpdateStock, .fail e⟩ ∈ (ProcessInventoryCheck env db input).calls) :
    (∃ tail, (ProcessInventoryCheck env db input).calls =
      [⟨.BeginTransaction, .ok⟩, ⟨.GetStockByMaterialAndLocation, .ok⟩,
       ⟨.CreateCheckRecord, .ok⟩, ⟨.UpdateStock, .fail e⟩,
       ⟨.RollbackTransaction, env.rollback 0⟩] ++ tail ∧
      ∀ c ∈ tail, c.op = .RollbackTransaction) ∧
    (∀ c ∈ (ProcessInventoryCheck env db input).calls, c.op ≠ .CommitTransaction) ∧
    (ProcessInventoryCheck env db input).db = db ∧
    (ProcessInventoryCheck env db input).db.records = db.records ∧
    (ProcessInventoryCheck env db input).db.stocks = db.stocks ∧
    ((∀ p, env.rollback 0 ≠ .fault p) →
      (ProcessInventoryCheck env db input).result
        = .returned (some (.wrap "failed to update stock" e)) ∧
      (ProcessInventoryCheck env db input).calls =
        [⟨.BeginTransaction, .ok⟩, ⟨.GetStockByMaterialAndLocation, .ok⟩,
         ⟨.CreateCheckRecord, .ok⟩, ⟨.UpdateStock, .fail e⟩,
         ⟨.RollbackTransaction, env.rollback 0⟩]) ∧
    (∀ p, env.rollback 0 = .fault p →
      (ProcessInventoryCheck env db input).result = recoveredResult env 1 ∧
      (∀ err, (ProcessInventoryCheck env db input).result ≠ .returned (some err)) ∧
      ((∀ q, env.rollback 1 ≠ .fault q) →
        (ProcessInventoryCheck env db input).result = .returned none)) := by
  have hrun := run_of_failed_call env db input .stock e hupdate
  rw [hrun]
  obtain ⟨hops, tail, htail⟩ := rollbackCalls_spec env
  refine ⟨⟨tail, ?_, ?_⟩, ?_, rfl, rfl, rfl, ?_, ?_⟩
  · simp [Step.before, Step.op, committedCalls, htail]
  · intro c hc
    exact hops c (by rw [htail]; exact List.mem_cons_of_mem _ hc)
  · intro c hc
    simp only [List.mem_append, List.mem_cons] at hc
    rcases hc with hc | hc | hc
    · simp [Step.before, committedCalls] at hc
      rcases hc with rfl | rfl | rfl <;> simp
    · subst hc; simp [Step.op]
    · rw [hops c hc]; simp
  · intro hret
    refine ⟨by simp [rollbackResult_of_returned env _ hret, Step.msg], ?_⟩
    simp [Step.before, Step.op, committedCalls, rollbackCalls_of_returned env hret]
  · intro p hp
    refine ⟨rollbackResult_of_fault env _ p hp, ?_, ?_⟩
    · intro err
      simp only [rollbackResult_of_fault env _ p hp]
      exact recoveredResult_ne_error env 1 err
    · intro hq
      simp only [rollbackResult_of_fault env _ p hp]
      unfold recoveredResult
      cases h1 : env.rollback 1 with
      | ok => rfl
      | fail e1 => rfl
      | fault q => exact absurd h1 (hq q)

/-- Witness of C3, at the failing input: the stock write refused with "disk
full" and a rollback that panics, on an empty store. The deferred function
rolls back again and the check returns nil. -/
theorem stock_write_failure_rolls_back_witness :
    (ProcessInventoryCheck
        ((Env.stockWriteFails (.base "disk full")).withPanickingRollback "connection reset")
        ⟨[], []⟩ ⟨"u1", "L1", "M1", 50⟩).calls =
      [⟨.BeginTransaction, .ok⟩, ⟨.GetStockByMaterialAndLocation, .ok⟩,
       ⟨.CreateCheckRecord, .ok⟩, ⟨.UpdateStock, .fail (.base "disk full")⟩,
       ⟨.RollbackTransaction, .fault "connection reset"⟩, ⟨.RollbackTransaction, .ok⟩] ∧
    (ProcessInventoryCheck
        ((Env.stockWriteFails (.base "disk full")).withPanickingRollback "connection reset")
        ⟨[], []⟩ ⟨"u1", "L1", "M1", 50⟩).result = .returned none ∧
    (ProcessInventoryCheck
        ((Env.stockWriteFails (.base "disk full")).withPanickingRollback "connection reset")
        ⟨[], []⟩ ⟨"u1", "L1", "M1", 50⟩).db = ⟨[], []⟩ ∧
    (∀ c ∈ (ProcessInventoryCheck
        ((Env.stockWriteFails (.base "disk full")).withPanickingRollback "connection reset")
        ⟨[], []⟩ ⟨"u1", "L1", "M1", 50⟩).calls, c.op ≠ .CommitTransaction) :=
  have h := stock_write_failure_rolls_back
    ((Env.stockWriteFails (.base "disk full")).withPanickingRollback "connection reset")
    ⟨[], []⟩ ⟨"u1", "L1", "M1", 50⟩ (.base "disk full") (by decide)
  ⟨by decide, by decide, h.2.2.1, h.2.1⟩

/-- Claim C4: the check returns the validation error (the wrapper
"input validation failed") exactly when CheckerID, LocationCode or MaterialCode
is empty or ActualQuantity is negative, so that a quantity of 0 is accepted;
the wrapped cause names the first failing field in the order checker_id,
location_code, material_code, actual_quantity; and a rejected input causes no
store call at all (no BeginTransaction) and leaves the tables unchanged. -/
theorem validation_error_iff (env : Env) (db : Tables) (input : InventoryCheckInput) :
    ((∃ cause, (ProcessInventoryCheck env db input).result
        = .returned (some (.wrap "input validation failed" cause))) ↔
      (input.CheckerID = "" ∨ input.LocationCode = "" ∨ input.MaterialCode = "" ∨
        input.ActualQuantity < 0)) ∧
    (input.CheckerID = "" →
      (ProcessInventoryCheck env db input).result = .returned (some
        (.wrap "input validation failed" (.base "checker_id is required")))) ∧
    (input.CheckerID ≠ "" → input.LocationCode = "" →
      (ProcessInventoryCheck env db input).result = .returned (some
        (.wrap "input validation failed" (.base "location_code is required")))) ∧
    (input.CheckerID ≠ "" → input.LocationCode ≠ "" → input.MaterialCode = "" →
      (ProcessInventoryCheck env db input).result = .returned (some
        (.wrap "input validation failed" (.base "material_code is required")))) ∧
    (input.CheckerID ≠ "" → input.LocationCode ≠ "" → input.MaterialCode ≠ "" →
      input.ActualQuantity < 0 →
      (ProcessInventoryCheck env db input).result = .returned (some
        (.wrap "input validation failed" (.base
          ("actual_quantity cannot be negative: " ++ toString input.ActualQuantity))))) ∧
    ((input.CheckerID = "" ∨ input.LocationCode = "" ∨ input.MaterialCode = "" ∨
        input.ActualQuantity < 0) →
      (ProcessInventoryCheck env db input).calls = [] ∧
      (ProcessInventoryCheck env db input).db = db) := by
  have hinv : ∀ err, validateInput input = some err →
      ProcessInventoryCheck env db input
        = ⟨.returned (some (.wrap "input validation failed" err)), [], db⟩ := by
    intro err h
    unfold ProcessInventoryCheck
    simp only [h]
  have hbad : (input.CheckerID = "" ∨ input.LocationCode = "" ∨ input.MaterialCode = "" ∨
      input.ActualQuantity < 0) → ∃ err, validateInput input = some err := by
    intro h
    cases hv : validateInput input with
    | some err => exact ⟨err, rfl⟩
    | none =>
      have hgood := (validateInput_eq_none_iff input).1 hv
      rcases h with h | h | h | h
      · exact absurd h hgood.1
      · exact absurd h hgood.2.1
      · exact absurd h hgood.2.2.1
      · exact absurd hgood.2.2.2 (not_le.2 h)
  refine ⟨⟨?_, ?_⟩, ?_, ?_, ?_, ?_, ?_⟩
  · rintro ⟨cause, hres⟩
    by_contra hgood
    have hv : validateInput input = none := by
      rw [validateInput_eq_none_iff]
      unfold ValidInput
      refine ⟨fun h => hgood (Or.inl h), fun h => hgood (Or.inr (Or.inl h)),
        fun h => hgood (Or.inr (Or.inr (Or.inl h))), ?_⟩
      by_contra h
      exact hgood (Or.inr (Or.inr (Or.inr (not_le.1 h))))
    have hshape := run_cases env db input
    generalize ProcessInventoryCheck env db input = r at hshape hres
    rcases hshape with ⟨err, hv0, hr⟩ | ⟨-, e0, -, hr⟩ | ⟨-, -, st, e0, o, ho, hr⟩ | ⟨-, -, ss, hs, hr⟩ |
      ⟨-, hp, hdb, hres0, hcall⟩
    · rw [hv] at hv0; cases hv0
    · subst hr; simp at hres
    · subst hr; cases st <;> simp [Step.msg] at hres
    · subst hr; simp at hres
    · rcases hres0 with h | ⟨p, h⟩ <;> rw [h] at hres <;> cases hres
  · intro h
    obtain ⟨err, hv⟩ := hbad h
    exact ⟨err, by rw [hinv err hv]⟩
  · intro h1
    rw [hinv (.base "checker_id is required") (by simp [validateInput, h1])]
  · intro h1 h2
    rw [hinv (.base "location_code is required") (by simp [validateInput, h1, h2])]
  · intro h1 h2 h3
    rw [hinv (.base "material_code is required") (by simp [validateInput, h1, h2, h3])]
  · intro h1 h2 h3 h4
    rw [hinv (.base ("actual_quantity cannot be negative: " ++ toString input.ActualQuantity))
      (by simp [validateInput, h1, h2, h3, h4])]
  · intro h
    obtain ⟨err, hv⟩ := hbad h
    rw [hinv err hv]
    exact ⟨rfl, rfl⟩

/-- Claim C7, the behaviour of the code: under every store behaviour, when the
stock lookup, the record write, the stock write or the commit (the step `st`)
failed with cause `e`, the run is the successful calls before that step, the
failed call, and then RollbackTransaction, after which only rollbacks follow
(no further read or write); nothing is committed. When that rollback returns,
it is the last store call and the check returns an error, the service message
wrapping `e`. When that rollback panics, the deferred function recovers and
rolls back once more, and the call returns nil (or the panic of the second
rollback propagates): the store error is swallowed. -/
theorem store_failure_rolls_back_and_wraps (env : Env) (db : Tables)
    (input : InventoryCheckInput) (st : Step) (e : Error)
    (hfail : ⟨st.op, .fail e⟩ ∈ (ProcessInventoryCheck env db input).calls) :
    (∃ tail, (ProcessInventoryCheck env db input).calls =
      st.before ++ ⟨st.op, .fail e⟩ :: ⟨.RollbackTransaction, env.rollback 0⟩ :: tail ∧
      ∀ c ∈ tail, c.op = .RollbackTransaction) ∧
    (∀ c ∈ st.before, c.outcome = .ok) ∧
    (ProcessInventoryCheck env db input).db = db ∧
    ((∀ p, env.rollback 0 ≠ .fault p) →
      (ProcessInventoryCheck env db input).calls =
        st.before ++ [⟨st.op, .fail e⟩, ⟨.RollbackTransaction, env.rollback 0⟩] ∧
      (ProcessInventoryCheck env db input).result = .returned (some (.wrap st.msg e)) ∧
      (Error.wrap st.msg e).wraps e = true) ∧
    (∀ p, env.rollback 0 = .fault p →
      (ProcessInventoryCheck env db input).result = recoveredResult env 1 ∧
      (∀ err, (ProcessInventoryCheck env db input).result ≠ .returned (some err)) ∧
      ((∀ q, env.rollback 1 ≠ .fault q) →
        (ProcessInventoryCheck env db input).result = .returned none)) := by
  have hw : (Error.wrap st.msg e).wraps e = true := by
    cases e <;> simp [Error.wraps]
  have hrun := run_of_failed_call env db input st e hfail
  rw [hrun]
  obtain ⟨hops, tail, htail⟩ := rollbackCalls_spec env
  refine ⟨⟨tail, by simp [htail], ?_⟩, before_ok st, rfl, ?_, ?_⟩
  · intro c hc
    exact hops c (by rw [htail]; exact List.mem_cons_of_mem _ hc)
  · intro hret
    exact ⟨by simp [rollbackCalls_of_returned env hret],
      by simp [rollbackResult_of_returned env _ hret], hw⟩
  · intro p hp
    refine ⟨rollbackResult_of_fault env _ p hp, ?_, ?_⟩
    · intro err
      simp only [rollbackResult_of_fault env _ p hp]
      exact recoveredResult_ne_error env 1 err
    · intro hq
      simp only [rollbackResult_of_fault env _ p hp]
      unfold recoveredResult
      cases h1 : env.rollback 1 with
      | ok => rfl
      | fail e1 => rfl
      | fault q => exact absurd h1 (hq q)

/-- Witness of C7, at the failing input: the stock lookup refused with
"connection lost" and a rollback that panics, on an empty store. The deferred
function rolls back again and the check returns nil. -/
theorem store_failure_rolls_back_and_wraps_witness :
    (ProcessInventoryCheck
        ((Env.lookupFails (.base "connection lost")).withPanickingRollback "connection reset")
        ⟨[], []⟩ ⟨"u1", "L1", "M1", 50⟩).calls =
      [⟨.BeginTransaction, .ok⟩,
       ⟨.GetStockByMaterialAndLocation, .fail (.base "connection lost")⟩,
       ⟨.RollbackTransaction, .fault "connection reset"⟩, ⟨.RollbackTransaction, .ok⟩] ∧
    (ProcessInventoryCheck
        ((Env.lookupFails (.base "connection lost")).withPanickingRollback "connection reset")
        ⟨[], []⟩ ⟨"u1", "L1", "M1", 50⟩).result = .returned none ∧
    (ProcessInventoryCheck
        ((Env.lookupFails (.base "connection lost")).withPanickingRollback "connection reset")
        ⟨[], []⟩ ⟨"u1", "L1", "M1", 50⟩).db = ⟨[], []⟩ :=
  have h := store_failure_rolls_back_and_wraps
    ((Env.lookupFails (.base "connection lost")).withPanickingRollback "connection reset")
    ⟨[], []⟩ ⟨"u1", "L1", "M1", 50⟩ .lookup (.base "connection lost") (by decide)
  ⟨by decide, by decide, h.2.2.1⟩

/-- Claim C8, the behaviour of the code: a panic of the stock lookup, of the
record write or of the stock write is recovered by the deferred function,
which rolls back; the panic does not reach the caller, the call returns `nil`,
the success result, and nothing is committed. -/
theorem recovered_panic_returns_success :
    ProcessInventoryCheck (Env.lookupPanics "nil pointer dereference") ⟨[], []⟩
        ⟨"u1", "L1", "M1", 50⟩ =
      ⟨.returned none,
       [⟨.BeginTransaction, .ok⟩,
        ⟨.GetStockByMaterialAndLocation, .fault "nil pointer dereference"⟩,
        ⟨.RollbackTransaction, .ok⟩],
       ⟨[], []⟩⟩ ∧
    ProcessInventoryCheck (Env.recordWritePanics "nil pointer dereference") ⟨[], []⟩
        ⟨"u1", "L1", "M1", 50⟩ =
      ⟨.returned none,
       [⟨.BeginTransaction, .ok⟩, ⟨.GetStockByMaterialAndLocation, .ok⟩,
        ⟨.CreateCheckRecord, .fault "nil pointer dereference"⟩,
        ⟨.RollbackTransaction, .ok⟩],
       ⟨[], []⟩⟩ ∧
    ProcessInventoryCheck (Env.stockWritePanics "nil pointer dereference") ⟨[], []⟩
        ⟨"u1", "L1", "M1", 50⟩ =
      ⟨.returned none,
       [⟨.BeginTransaction, .ok⟩, ⟨.GetStockByMaterialAndLocation, .ok⟩,
        ⟨.CreateCheckRecord, .ok⟩, ⟨.UpdateStock, .fault "nil pointer dereference"⟩,
        ⟨.RollbackTransaction, .ok⟩],
       ⟨[], []⟩⟩ := by
  decide

/-- After a successful save of the stock value the service built, the lookup
of the pair finds a row with the counted quantity. -/
theorem saveStock_ok_balance (now : Nat) (t : List Stock) (input : InventoryCheckInput)
    (ss : List Stock)
    (hs : saveStock now t
      (newStock input (firstStock t input.MaterialCode input.LocationCode)) = .ok ss) :
    ∃ st, firstStock ss input.MaterialCode input.LocationCode = some st ∧
      st.Quantity = input.ActualQuantity := by
  cases hf : firstStock t input.MaterialCode input.LocationCode with
  | none =>
    rw [hf, saveStock_absent _ _ _ hf] at hs
    rw [← Except.ok.inj hs]
    exact ⟨_, firstStock_append_new _ _ _ _ hf rfl rfl, rfl⟩
  | some s =>
    rw [hf] at hs
    obtain ⟨-, hss⟩ := saveStock_found _ _ _ _ _ hf hs
    obtain ⟨-, hm, hl⟩ := firstStock_some _ _ _ _ hf
    rw [hss]
    exact ⟨_, firstStock_map_update _ _ _ _ _ hf hm hl, rfl⟩

/-- Counterexample to C9 as stated: the stock lookup fails and the rollback of
the error branch panics; the deferred function rolls back again, so a store
call follows a RollbackTransaction, which is not the last call of the run. -/
theorem rollback_follows_panicked_rollback :
    (ProcessInventoryCheck
        ((Env.lookupFails (.base "connection lost")).withPanickingRollback "connection reset")
        ⟨[], []⟩ ⟨"u1", "L1", "M1", 50⟩).calls =
      [⟨.BeginTransaction, .ok⟩,
       ⟨.GetStockByMaterialAndLocation, .fail (.base "connection lost")⟩,
       ⟨.RollbackTransaction, .fault "connection reset"⟩, ⟨.RollbackTransaction, .ok⟩] ∧
    ∃ c ∈ (ProcessInventoryCheck
        ((Env.lookupFails (.base "connection lost")).withPanickingRollback "connection reset")
        ⟨[], []⟩ ⟨"u1", "L1", "M1", 50⟩).calls.dropLast, c.op = .RollbackTransaction := by
  decide

/-- Claim C9, amended: under every store behaviour, panics included, the store
calls of one check follow the state machine. A rejected input makes no call;
a BeginTransaction that fails or panics is the only call (an error is
returned, respectively the panic propagates); otherwise the calls are
BeginTransaction, GetStockByMaterialAndLocation, CreateCheckRecord,
UpdateStock, CommitTransaction in that order, all successful, or that sequence
cut at the first step that fails or panics and followed by
RollbackTransaction, and by one more RollbackTransaction when the step
returned an error and the first rollback panicked. A run that opened a
transaction ends with a successful commit or with a rollback; before the last
call there is no successful commit and no rollback other than one that
panicked; and a CommitTransaction is the fifth call, after four successes. -/
theorem call_sequence_follows_state_machine (env : Env) (db : Tables)
    (input : InventoryCheckInput) :
    (¬ ValidInput input → (ProcessInventoryCheck env db input).calls = []) ∧
    (ValidInput input → ∀ e, env.begin = .fail e →
      (ProcessInventoryCheck env db input).calls = [⟨.BeginTransaction, .fail e⟩] ∧
      ∃ err, (ProcessInventoryCheck env db input).result = .returned (some err)) ∧
    (ValidInput input → ∀ p, env.begin = .fault p →
      (ProcessInventoryCheck env db input).calls = [⟨.BeginTransaction, .fault p⟩] ∧
      (ProcessInventoryCheck env db input).result = .panicked p) ∧
    (ValidInput input → env.begin = .ok →
      ((ProcessInventoryCheck env db input).calls =
          [⟨.BeginTransaction, .ok⟩, ⟨.GetStockByMaterialAndLocation, .ok⟩,
           ⟨.CreateCheckRecord, .ok⟩, ⟨.UpdateStock, .ok⟩, ⟨.CommitTransaction, .ok⟩] ∧
        (ProcessInventoryCheck env db input).result = .returned none) ∨
      (∃ (st : Step) (e : Error), (∀ c ∈ st.before, c.outcome = .ok) ∧
        (((∀ p, env.rollback 0 ≠ .fault p) ∧
            (ProcessInventoryCheck env db input).calls =
              st.before ++ [⟨st.op, .fail e⟩, ⟨.RollbackTransaction, env.rollback 0⟩] ∧
            ∃ err, (ProcessInventoryCheck env db input).result = .returned (some err)) ∨
          (∃ p, env.rollback 0 = .fault p ∧
            (ProcessInventoryCheck env db input).calls =
              st.before ++ [⟨st.op, .fail e⟩, ⟨.RollbackTransaction, .fault p⟩,
                ⟨.RollbackTransaction, env.rollback 1⟩]))) ∨
      (∃ (st : Step) (p : String), (∀ c ∈ st.before, c.outcome = .ok) ∧
        (ProcessInventoryCheck env db input).calls =
          st.before ++ [⟨st.op, .fault p⟩, ⟨.RollbackTransaction, env.rollback 0⟩])) ∧
    (⟨.BeginTransaction, .ok⟩ ∈ (ProcessInventoryCheck env db input).calls →
      ∃ last, (ProcessInventoryCheck env db input).calls.getLast? = some last ∧
        (last = ⟨.CommitTransaction, .ok⟩ ∨ last.op = .RollbackTransaction)) ∧
    (∀ c ∈ (ProcessInventoryCheck env db input).calls.dropLast,
      c ≠ ⟨.CommitTransaction, .ok⟩ ∧
      (c.op = .RollbackTransaction → ∃ p, c.outcome = .fault p)) ∧
    (∀ c ∈ (ProcessInventoryCheck env db input).calls, c.op = .CommitTransaction →
      (ProcessInventoryCheck env db input).calls.take 4 =
        [⟨.BeginTransaction, .ok⟩, ⟨.GetStockByMaterialAndLocation, .ok⟩,
         ⟨.CreateCheckRecord, .ok⟩, ⟨.UpdateStock, .ok⟩] ∧
      (ProcessInventoryCheck env db input).calls.get? 4 = some c) := by
  have hform := run_forms env db input
  generalize ProcessInventoryCheck env db input = r at hform ⊢
  rcases hform with ⟨err, hv, hr⟩ | ⟨hv, e0, hb, hr⟩ | ⟨hv, p0, hb, hr⟩ | ⟨hv, hb, st, e0, hr⟩ |
    ⟨hv, hb, st, p0, hr⟩ | ⟨hv, hb, ss, hs, hr⟩
  · have hbad : ¬ ValidInput input := by
      rw [← validateInput_eq_none_iff, hv]; simp
    subst hr
    exact ⟨fun _ => rfl, fun h => absurd h hbad, fun h => absurd h hbad,
      fun h => absurd h hbad, by simp, by simp, by simp⟩
  · have hgood := (validateInput_eq_none_iff input).1 hv
    subst hr
    refine ⟨fun h => absurd hgood h, ?_, ?_, ?_, by simp, by simp, by simp⟩
    · intro _ e he
      rw [hb] at he
      cases he
      exact ⟨rfl, _, rfl⟩
    · intro _ p he
      rw [hb] at he
      cases he
    · intro _ he
      rw [hb] at he
      cases he
  · have hgood := (validateInput_eq_none_iff input).1 hv
    subst hr
    refine ⟨fun h => absurd hgood h, ?_, ?_, ?_, by simp, by simp, by simp⟩
    · intro _ e he
      rw [hb] at he
      cases he
    · intro _ p he
      rw [hb] at he
      cases he
      exact ⟨rfl, rfl⟩
    · intro _ he
      rw [hb] at he
      cases he
  · have hgood := (validateInput_eq_none_iff input).1 hv
    subst hr
    refine ⟨fun h => absurd hgood h, ?_, ?_, ?_, ?_, ?_, ?_⟩
    · intro _ e he
      rw [hb] at he
      cases he
    · intro _ p he
      rw [hb] at he
      cases he
    · intro _ _
      refine Or.inr (Or.inl ⟨st, e0, before_ok st, ?_⟩)
      by_cases hret : ∀ p, env.rollback 0 ≠ .fault p
      · exact Or.inl ⟨hret, by simp [rollbackCalls_of_returned env hret],
          _, rollbackResult_of_returned env _ hret⟩
      · right
        have hex : ∃ p, env.rollback 0 = .fault p := by
          by_contra hno
          exact hret (fun p hp => hno ⟨p, hp⟩)
        obtain ⟨p, hp⟩ := hex
        exact ⟨p, hp, by simp [rollbackCalls, hp]⟩
    · intro _
      cases hr0 : env.rollback 0 with
      | ok =>
        exact ⟨⟨.RollbackTransaction, .ok⟩,
          by cases st <;> simp [Step.before, committedCalls, rollbackCalls, hr0], Or.inr rfl⟩
      | fail e1 =>
        exact ⟨⟨.RollbackTransaction, .fail e1⟩,
          by cases st <;> simp [Step.before, committedCalls, rollbackCalls, hr0], Or.inr rfl⟩
      | fault p =>
        exact ⟨⟨.RollbackTransaction, env.rollback 1⟩,
          by cases st <;> simp [Step.before, committedCalls, rollbackCalls, hr0], Or.inr rfl⟩
    · intro c hc
      cases hr0 : env.rollback 0 with
      | ok =>
        cases st <;>
          simp [Step.before, Step.op, committedCalls, rollbackCalls, hr0, List.dropLast] at hc
        · rcases hc with rfl | rfl <;> simp
        · rcases hc with rfl | rfl | rfl <;> simp
        · rcases hc with rfl | rfl | rfl | rfl <;> simp
        · rcases hc with rfl | rfl | rfl | rfl | rfl <;> simp
      | fail e1 =>
        cases st <;>
          simp [Step.before, Step.op, committedCalls, rollbackCalls, hr0, List.dropLast] at hc
        · rcases hc with rfl | rfl <;> simp
        · rcases hc with rfl | rfl | rfl <;> simp
        · rcases hc with rfl | rfl | rfl | rfl <;> simp
        · rcases hc with rfl | rfl | rfl | rfl | rfl <;> simp
      | fault p =>
        cases st <;>
          simp [Step.before, Step.op, committedCalls, rollbackCalls, hr0, List.dropLast] at hc
        · rcases hc with rfl | rfl | rfl <;> simp
        · rcases hc with rfl | rfl | rfl | rfl <;> simp
        · rcases hc with rfl | rfl | rfl | rfl | rfl <;> simp
        · rcases hc with rfl | rfl | rfl | rfl | rfl | rfl <;> simp
    · intro c hc hop
      simp only [List.mem_append, List.mem_cons] at hc
      rcases hc with hc | hc | hc
      · cases st <;> simp [Step.before, committedCalls] at hc
        · subst hc; simp at hop
        · rcases hc with rfl | rfl <;> simp at hop
        · rcases hc with rfl | rfl | rfl <;> simp at hop
        · rcases hc with rfl | rfl | rfl | rfl <;> simp at hop
      · subst hc
        cases st <;> simp [Step.op] at hop
        simp [Step.before, Step.op, committedCalls]
      · rw [(rollbackCalls_spec env).1 c hc] at hop
        cases hop
  · have hgood := (validateInput_eq_none_iff input).1 hv
    subst hr
    refine ⟨fun h => absurd hgood h, ?_, ?_, ?_, ?_, ?_, ?_⟩
    · intro _ e he
      rw [hb] at he
      cases he
    · intro _ p he
      rw [hb] at he
      cases he
    · intro _ _
      exact Or.inr (Or.inr ⟨st, p0, before_ok st, rfl⟩)
    · intro _
      exact ⟨⟨.RollbackTransaction, env.rollback 0⟩,
        by cases st <;> simp [Step.before, committedCalls], Or.inr rfl⟩
    · intro c hc
      cases st <;> simp [Step.before, Step.op, committedCalls, List.dropLast] at hc
      · rcases hc with rfl | rfl <;> simp
      · rcases hc with rfl | rfl | rfl <;> simp
      · rcases hc with rfl | rfl | rfl | rfl <;> simp
      · rcases hc with rfl | rfl | rfl | rfl | rfl <;> simp
    · intro c hc hop
      simp only [List.mem_append, List.mem_cons, List.mem_singleton] at hc
      rcases hc with hc | hc | hc | hc
      · cases st <;> simp [Step.before, committedCalls] at hc
        · subst hc; simp at hop
        · rcases hc with rfl | rfl <;> simp at hop
        · rcases hc with rfl | rfl | rfl <;> simp at hop
        · rcases hc with rfl | rfl | rfl | rfl <;> simp at hop
      · subst hc
        cases st <;> simp [Step.op] at hop
        simp [Step.before, Step.op, committedCalls]
      · subst hc; simp at hop
      · simp at hc
  · have hgood := (validateInput_eq_none_iff input).1 hv
    subst hr
    refine ⟨fun h => absurd hgood h, ?_, ?_, ?_, ?_, ?_, ?_⟩
    · intro _ e he
      rw [hb] at he
      cases he
    · intro _ p he
      rw [hb] at he
      cases he
    · intro _ _
      exact Or.inl ⟨rfl, rfl⟩
    · intro _
      exact ⟨⟨.CommitTransaction, .ok⟩, by simp [committedCalls], Or.inl rfl⟩
    · intro c hc
      simp [committedCalls, List.dropLast] at hc
      rcases hc with rfl | rfl | rfl | rfl <;> simp
    · intro c hc hop
      simp [committedCalls] at hc ⊢
      rcases hc with rfl | rfl | rfl | rfl | rfl <;> simp at hop
      rfl

/-- Claim C10, the behaviour of the code: atomicity of a check. Under every
store behaviour a check that returns an error leaves the committed tables,
records and balances, as they were, and the tables are either untouched or
show both the new record and the updated balance: a record is never committed
without its stock update, nor a stock update without its record. A check that
returns success has either appended exactly one record to the records present
before (which are unchanged), carrying the input's CheckerID, LocationCode,
MaterialCode and ActualQuantity with IsProcessed = true, with the committed
balance of the pair holding the counted quantity, or it has committed nothing
and a store call of the run panicked: the deferred function recovered the
panic and the call returned nil. The first is the case whenever no store call
panics; the second is the run of a panicking stock lookup on an empty store. -/
theorem check_is_atomic (env : Env) (db : Tables) (input : InventoryCheckInput) :
    (∀ err, (ProcessInventoryCheck env db input).result = .returned (some err) →
      (ProcessInventoryCheck env db input).db = db) ∧
    (env.NoPanic → (ProcessInventoryCheck env db input).result = .returned none →
      ∃ record balance,
        (ProcessInventoryCheck env db input).db.records = db.records ++ [record] ∧
        record.CheckerID = input.CheckerID ∧ record.LocationCode = input.LocationCode ∧
        record.MaterialCode = input.MaterialCode ∧
        record.ActualQuantity = input.ActualQuantity ∧ record.IsProcessed = true ∧
        firstStock (ProcessInventoryCheck env db input).db.stocks
          input.MaterialCode input.LocationCode = some balance ∧
        balance.Quantity = input.ActualQuantity) ∧
    ((ProcessInventoryCheck env db input).db = db ∨
      ∃ record balance,
        (ProcessInventoryCheck env db input).db.records = db.records ++ [record] ∧
        record.CheckerID = input.CheckerID ∧ record.LocationCode = input.LocationCode ∧
        record.MaterialCode = input.MaterialCode ∧
        record.ActualQuantity = input.ActualQuantity ∧ record.IsProcessed = true ∧
        firstStock (ProcessInventoryCheck env db input).db.stocks
          input.MaterialCode input.LocationCode = some balance ∧
        balance.Quantity = input.ActualQuantity) ∧
    ((ProcessInventoryCheck env db input).result = .returned none →
      (∃ record balance,
        (ProcessInventoryCheck env db input).db.records = db.records ++ [record] ∧
        record.CheckerID = input.CheckerID ∧ record.LocationCode = input.LocationCode ∧
        record.MaterialCode = input.MaterialCode ∧
        record.ActualQuantity = input.ActualQuantity ∧ record.IsProcessed = true ∧
        firstStock (ProcessInventoryCheck env db input).db.stocks
          input.MaterialCode input.LocationCode = some balance ∧
        balance.Quantity = input.ActualQuantity) ∨
      ((ProcessInventoryCheck env db input).db = db ∧
        ∃ c ∈ (ProcessInventoryCheck env db input).calls, ∃ p, c.outcome = .fault p)) ∧
    ((ProcessInventoryCheck (Env.lookupPanics "nil pointer dereference") ⟨[], []⟩
        ⟨"u1", "L1", "M1", 50⟩).result = .returned none ∧
      (ProcessInventoryCheck (Env.lookupPanics "nil pointer dereference") ⟨[], []⟩
        ⟨"u1", "L1", "M1", 50⟩).db = ⟨[], []⟩) := by
  have hshape := run_cases env db input
  generalize ProcessInventoryCheck env db input = r at hshape ⊢
  rcases hshape with ⟨err, hv, hr⟩ | ⟨hv, e0, hb, hr⟩ | ⟨hv, hb, st, e0, o, ho, hr⟩ |
    ⟨hv, hb, ss, hs, hr⟩ | ⟨hv, hp, hdb, hres, hcall⟩
  · subst hr
    exact ⟨fun _ _ => rfl, fun _ h => by simp at h, Or.inl rfl, fun h => by simp at h,
      by decide⟩
  · subst hr
    exact ⟨fun _ _ => rfl, fun _ h => by simp at h, Or.inl rfl, fun h => by simp at h,
      by decide⟩
  · subst hr
    exact ⟨fun _ _ => rfl, fun _ h => by simp at h, Or.inl rfl, fun h => by simp at h,
      by decide⟩
  · subst hr
    obtain ⟨st, hst, hq⟩ := saveStock_ok_balance _ _ _ _ hs
    have hcommitted : ∃ record balance,
        db.records ++ [storedRecord env db input] = db.records ++ [record] ∧
        record.CheckerID = input.CheckerID ∧ record.LocationCode = input.LocationCode ∧
        record.MaterialCode = input.MaterialCode ∧
        record.ActualQuantity = input.ActualQuantity ∧ record.IsProcessed = true ∧
        firstStock ss input.MaterialCode input.LocationCode = some balance ∧
        balance.Quantity = input.ActualQuantity :=
      ⟨storedRecord env db input, st, rfl, rfl, rfl, rfl, rfl, rfl, hst, hq⟩
    exact ⟨fun _ h => by simp at h, fun _ _ => hcommitted, Or.inr hcommitted,
      fun _ => Or.inl hcommitted, by decide⟩
  · refine ⟨?_, fun hnp => absurd hnp hp, Or.inl hdb, fun _ => Or.inr ⟨hdb, hcall⟩,
      by decide⟩
    intro err h
    rcases hres with h0 | ⟨p, h0⟩ <;> rw [h0] at h <;> cases h

/-! ## Batches -/

/-- A check that returns an error has committed nothing, whatever the store
does. -/
theorem db_of_returned_error (env : Env) (db : Tables) (input : InventoryCheckInput)
    (err : Error) (h : (ProcessInventoryCheck env db input).result = .returned (some err)) :
    (ProcessInventoryCheck env db input).db = db := by
  have hshape := run_cases env db input
  generalize ProcessInventoryCheck env db input = r at hshape h ⊢
  rcases hshape with ⟨err, hv, hr⟩ | ⟨hv, e0, hb, hr⟩ | ⟨hv, hb, st, e0, o, ho, hr⟩ |
    ⟨hv, hb, ss, hs, hr⟩ | ⟨hv, hp, hdb, hres, hcall⟩
  · subst hr; rfl
  · subst hr; rfl
  · subst hr; rfl
  · subst hr; simp at h
  · exact hdb

theorem batch_cons_returned (world : Nat → Env) (db : Tables) (input : InventoryCheckInput)
    (rest : List InventoryCheckInput) (err : Option Error)
    (h : (ProcessInventoryCheck (world 0) db input).result = .returned err) :
    ProcessBatchInventoryCheck world db (input :: rest) =
      ⟨err :: (ProcessBatchInventoryCheck (fun i => world (i + 1))
          (ProcessInventoryCheck (world 0) db input).db rest).errors,
       (ProcessBatchInventoryCheck (fun i => world (i + 1))
          (ProcessInventoryCheck (world 0) db input).db rest).panic,
       (ProcessInventoryCheck (world 0) db input).calls ++
        (ProcessBatchInventoryCheck (fun i => world (i + 1))
          (ProcessInventoryCheck (world 0) db input).db rest).calls,
       (ProcessBatchInventoryCheck (fun i => world (i + 1))
          (ProcessInventoryCheck (world 0) db input).db rest).db⟩ := by
  rw [ProcessBatchInventoryCheck]
  simp only [h]

theorem batch_cons_panicked (world : Nat → Env) (db : Tables) (input : InventoryCheckInput)
    (rest : List InventoryCheckInput) (p : String)
    (h : (ProcessInventoryCheck (world 0) db input).result = .panicked p) :
    ProcessBatchInventoryCheck world db (input :: rest) =
      ⟨[], some p, (ProcessInventoryCheck (world 0) db input).calls,
       (ProcessInventoryCheck (world 0) db input).db⟩ := by
  rw [ProcessBatchInventoryCheck]
  simp only [h]

theorem eraseWorld_zero (world : Nat → Env) : eraseWorld world 0 = fun i => world (i + 1) := by
  funext i
  simp [eraseWorld]

theorem eraseWorld_succ (world : Nat → Env) (j : Nat) :
    (fun i => eraseWorld world (j + 1) (i + 1)) = eraseWorld (fun i => world (i + 1)) j := by
  funext i
  simp [eraseWorld]

/-- A failing item leaves no trace in a batch: if the outcome at index `j` is
an error, the tables after item `j` are those before it, and the batch without
item `j` has the same other outcomes, the same panic status and the same
final tables. In this store model the final tables agree keys included,
because `nextID` hands the key of a rolled-back insert out again. -/
theorem batch_erase_failed (world : Nat → Env) (db : Tables)
    (inputs : List InventoryCheckInput) (j : Nat) (err : Error)
    (hj : (ProcessBatchInventoryCheck world db inputs).errors[j]? = some (some err)) :
    (ProcessBatchInventoryCheck world db (inputs.take (j + 1))).db
      = (ProcessBatchInventoryCheck world db (inputs.take j)).db ∧
    (ProcessBatchInventoryCheck (eraseWorld world j) db (inputs.eraseIdx j)).errors
      = (ProcessBatchInventoryCheck world db inputs).errors.eraseIdx j ∧
    (ProcessBatchInventoryCheck (eraseWorld world j) db (inputs.eraseIdx j)).panic
      = (ProcessBatchInventoryCheck world db inputs).panic ∧
    (ProcessBatchInventoryCheck (eraseWorld world j) db (inputs.eraseIdx j)).db
      = (ProcessBatchInventoryCheck world db inputs).db := by
  induction inputs generalizing world db j with
  | nil => simp [ProcessBatchInventoryCheck] at hj
  | cons x xs ih =>
    cases hres : (ProcessInventoryCheck (world 0) db x).result with
    | panicked p =>
      rw [batch_cons_panicked _ _ _ _ _ hres] at hj
      simp at hj
    | returned err0 =>
      rw [batch_cons_returned _ _ _ _ _ hres] at hj ⊢
      cases j with
      | zero =>
        simp only [List.getElem?_cons_zero, Option.some.injEq] at hj
        subst hj
        have hdb := db_of_returned_error _ _ _ _ hres
        simp only [List.eraseIdx_cons_zero, eraseWorld_zero]
        rw [hdb]
        refine ⟨?_, rfl, rfl, rfl⟩
        rw [List.take_succ_cons, List.take_zero, batch_cons_returned _ _ _ _ _ hres, hdb]
        simp [ProcessBatchInventoryCheck]
      | succ j =>
        simp only [List.getElem?_cons_succ] at hj
        obtain ⟨h1, h2, h3, h4⟩ := ih (fun i => world (i + 1)) _ j hj
        have h0 : (ProcessInventoryCheck (eraseWorld world (j + 1) 0) db x).result
            = .returned err0 := by
          simpa [eraseWorld] using hres
        have hw0 : eraseWorld world (j + 1) 0 = world 0 := by simp [eraseWorld]
        simp only [List.eraseIdx_cons_succ]
        rw [batch_cons_returned _ _ _ _ _ h0, eraseWorld_succ, hw0]
        refine ⟨?_, by simp [h2], h3, h4⟩
        rw [List.take_succ_cons, List.take_succ_cons, batch_cons_returned _ _ _ _ _ hres,
          batch_cons_returned _ _ _ _ _ hres]
        exact h1

theorem fault_call_of_panicked (env : Env) (db : Tables) (input : InventoryCheckInput)
    (p : String) (h : (ProcessInventoryCheck env db input).result = .panicked p) :
    ∃ c ∈ (ProcessInventoryCheck env db input).calls, ∃ q, c.outcome = .fault q := by
  have hshape := run_cases env db input
  generalize ProcessInventoryCheck env db input = r at hshape h ⊢
  rcases hshape with ⟨err, hv, hr⟩ | ⟨hv, e0, hb, hr⟩ | ⟨hv, hb, st, e0, o, ho, hr⟩ |
    ⟨hv, hb, ss, hs, hr⟩ | ⟨hv, hp, hdb, hres, hcall⟩
  · subst hr; simp at h
  · subst hr; simp at h
  · subst hr; simp at h
  · subst hr; simp at h
  · exact hcall

theorem run_empty_checker (env : Env) (db : Tables) (input : InventoryCheckInput)
    (h : input.CheckerID = "") :
    ProcessInventoryCheck env db input =
      ⟨.returned (some (.wrap "input validation failed" (.base "checker_id is required"))),
       [], db⟩ := by
  unfold ProcessInventoryCheck
  simp [validateInput, h]

/-- Claim C6: a failing item has no effect on the other items of a batch. For
every batch and every index j whose outcome is an error, the tables after
item j are those before it, and the batch without item j has the same other
outcomes and the same final tables up to the keys of the rows (a rolled-back
item may have used up keys of the store's sequences). In particular, for a
batch [a, b, c] with a and c valid and b without checker ID in which every
store call succeeds, the outcomes are success, the validation error for
checker_id, success, and the outcomes and final tables of a and c are those
of the batch [a, c]; b is rejected before any store call, so here the tables
agree keys included. -/
theorem failed_item_has_no_effect (world : Nat → Env) (db : Tables) :
    (∀ (inputs : List InventoryCheckInput) (j : Nat) (err : Error),
      (ProcessBatchInventoryCheck world db inputs).errors[j]? = some (some err) →
      (ProcessBatchInventoryCheck world db (inputs.take (j + 1))).db
        = (ProcessBatchInventoryCheck world db (inputs.take j)).db ∧
      (ProcessBatchInventoryCheck (eraseWorld world j) db (inputs.eraseIdx j)).errors
        = (ProcessBatchInventoryCheck world db inputs).errors.eraseIdx j ∧
      (ProcessBatchInventoryCheck (eraseWorld world j) db (inputs.eraseIdx j)).db.withoutKeys
        = (ProcessBatchInventoryCheck world db inputs).db.withoutKeys) ∧
    (∀ a b c : InventoryCheckInput, ValidInput a → ValidInput c → b.CheckerID = "" →
      (∀ call ∈ (ProcessBatchInventoryCheck world db [a, b, c]).calls, call.outcome = .ok) →
      (ProcessBatchInventoryCheck world db [a, b, c]).errors =
        [none, some (.wrap "input validation failed" (.base "checker_id is required")), none] ∧
      (ProcessBatchInventoryCheck (eraseWorld world 1) db [a, c]).errors = [none, none] ∧
      (ProcessBatchInventoryCheck (eraseWorld world 1) db [a, c]).db
        = (ProcessBatchInventoryCheck world db [a, b, c]).db) := by
  refine ⟨?_, ?_⟩
  · intro inputs j err hj
    obtain ⟨h1, h2, -, h4⟩ := batch_erase_failed world db inputs j err hj
    exact ⟨h1, h2, congrArg Tables.withoutKeys h4⟩
  · intro a b c ha hc hb hok
    have hva := (validateInput_eq_none_iff a).2 ha
    have hvc := (validateInput_eq_none_iff c).2 hc
    -- the first item
    have hra : ∃ erra, (ProcessInventoryCheck (world 0) db a).result = .returned erra := by
      cases hres : (ProcessInventoryCheck (world 0) db a).result with
      | returned e => exact ⟨e, rfl⟩
      | panicked p =>
        obtain ⟨call, hmem, q, hq⟩ := fault_call_of_panicked _ _ _ _ hres
        rw [batch_cons_panicked _ _ _ _ _ hres] at hok
        have := hok call hmem
        rw [hq] at this
        cases this
    obtain ⟨erra, hresa⟩ := hra
    rw [batch_cons_returned _ _ _ _ _ hresa] at hok
    have hoka : ∀ call ∈ (ProcessInventoryCheck (world 0) db a).calls, call.outcome = .ok :=
      fun call h => hok call (List.mem_append_left _ h)
    obtain ⟨ssa, -, hruna⟩ := run_of_calls_ok _ _ _ hva hoka
    have herra : erra = none := by
      have h := hresa
      rw [hruna] at h
      cases h
      rfl
    subst herra
    -- the second item is rejected, the third runs on the tables of the first
    have hrunb := fun dbb => run_empty_checker (world 1) dbb b hb
    have hresb := fun dbb => congrArg Run.result (hrunb dbb)
    have hokc : ∀ call ∈ (ProcessInventoryCheck (world 2)
        (ProcessInventoryCheck (world 0) db a).db c).calls, call.outcome = .ok := by
      intro call h
      apply hok call
      apply List.mem_append_right
      rw [batch_cons_returned _ _ _ _ _ (hresb _)]
      simp only [hrunb, List.nil_append]
      cases hres : (ProcessInventoryCheck (world 2)
          (ProcessInventoryCheck (world 0) db a).db c).result with
      | returned e =>
        rw [batch_cons_returned _ _ _ _ _ hres]
        exact List.mem_append_left _ h
      | panicked p =>
        rw [batch_cons_panicked _ _ _ _ _ hres]
        exact h
    obtain ⟨ssc, -, hrunc⟩ := run_of_calls_ok _ _ _ hvc hokc
    have herrors : (ProcessBatchInventoryCheck world db [a, b, c]).errors =
        [none, some (.wrap "input validation failed" (.base "checker_id is required")),
         none] := by
      rw [batch_cons_returned _ _ _ _ _ hresa, batch_cons_returned _ _ _ _ _ (hresb _)]
      simp only [hrunb]
      rw [batch_cons_returned _ _ _ _ none (by rw [hrunc])]
      simp [hruna, ProcessBatchInventoryCheck]
    obtain ⟨-, h2, -, h4⟩ := batch_erase_failed world db [a, b, c] 1
      (.wrap "input validation failed" (.base "checker_id is required")) (by rw [herrors]; rfl)
    refine ⟨herrors, ?_, ?_⟩
    · have : [a, b, c].eraseIdx 1 = [a, c] := rfl
      rw [this, herrors] at h2
      exact h2
    · have : [a, b, c].eraseIdx 1 = [a, c] := rfl
      rw [this] at h4
      exact h4

/-- Witness of C6: the scenario of the specification on an empty store where
every call runs; the second of three items has no checker ID. -/
theorem failed_item_has_no_effect_witness :
    (ProcessBatchInventoryCheck (fun _ => Env.allOk 7 9) ⟨[], []⟩
        [⟨"u1", "L1", "M1", 50⟩, ⟨"", "L1", "M2", 7⟩, ⟨"u2", "L1", "M1", 45⟩]).errors =
      [none, some (.wrap "input validation failed" (.base "checker_id is required")), none] ∧
    (ProcessBatchInventoryCheck (eraseWorld (fun _ => Env.allOk 7 9) 1) ⟨[], []⟩
        [⟨"u1", "L1", "M1", 50⟩, ⟨"u2", "L1", "M1", 45⟩]).errors = [none, none] ∧
    (ProcessBatchInventoryCheck (eraseWorld (fun _ => Env.allOk 7 9) 1) ⟨[], []⟩
        [⟨"u1", "L1", "M1", 50⟩, ⟨"u2", "L1", "M1", 45⟩]).db
      = (ProcessBatchInventoryCheck (fun _ => Env.allOk 7 9) ⟨[], []⟩
        [⟨"u1", "L1", "M1", 50⟩, ⟨"", "L1", "M2", 7⟩, ⟨"u2", "L1", "M1", 45⟩]).db :=
  (failed_item_has_no_effect (fun _ => Env.allOk 7 9) ⟨[], []⟩).2
    ⟨"u1", "L1", "M1", 50⟩ ⟨"", "L1", "M2", 7⟩ ⟨"u2", "L1", "M1", 45⟩
    (by decide) (by decide) rfl (by decide)

/-! ## Invariants of the stock table -/

/-- The stock table after a check is the one before, or the result of the
save of the value the service built. -/
theorem stocks_after_check (env : Env) (db : Tables) (input : InventoryCheckInput) :
    (ProcessInventoryCheck env db input).db = db ∨
    (validateInput input = none ∧ ∃ ss, saveStock env.storeNow db.stocks
        (newStock input (firstStock db.stocks input.MaterialCode input.LocationCode)) = .ok ss ∧
      (ProcessInventoryCheck env db input).db
        = ⟨ss, db.records ++ [storedRecord env db input]⟩) := by
  have hshape := run_cases env db input
  generalize ProcessInventoryCheck env db input = r at hshape ⊢
  rcases hshape with ⟨err, hv, hr⟩ | ⟨hv, e0, hb, hr⟩ | ⟨hv, hb, st, e0, o, ho, hr⟩ |
    ⟨hv, hb, ss, hs, hr⟩ | ⟨hv, hp, hdb, hres, hcall⟩
  · subst hr; exact Or.inl rfl
  · subst hr; exact Or.inl rfl
  · subst hr; exact Or.inl rfl
  · subst hr; exact Or.inr ⟨hv, ss, hs, rfl⟩
  · exact Or.inl hdb

/-- The result of a successful save, by cases on the lookup: a row appended
under the next key, or the found row (of non-zero key) overwritten in place. -/
theorem saveStock_ok_cases (now : Nat) (t : List Stock) (input : InventoryCheckInput)
    (ss : List Stock)
    (hs : saveStock now t
      (newStock input (firstStock t input.MaterialCode input.LocationCode)) = .ok ss) :
    (firstStock t input.MaterialCode input.LocationCode = none ∧
      ss = t ++ [{ ID := nextID (t.map (·.ID)), MaterialCode := input.MaterialCode,
                   LocationCode := input.LocationCode, Quantity := input.ActualQuantity,
                   CreatedAt := now, UpdatedAt := now }]) ∨
    (∃ s, firstStock t input.MaterialCode input.LocationCode = some s ∧ s.ID ≠ 0 ∧
      ss = t.map (fun x => if x.ID = s.ID
        then { s with Quantity := input.ActualQuantity, UpdatedAt := now } else x)) := by
  cases hf : firstStock t input.MaterialCode input.LocationCode with
  | none =>
    rw [hf, saveStock_absent _ _ _ hf] at hs
    exact Or.inl ⟨rfl, (Except.ok.inj hs).symm⟩
  | some s =>
    rw [hf] at hs
    obtain ⟨h0, hss⟩ := saveStock_found _ _ _ _ _ hf hs
    exact Or.inr ⟨s, rfl, h0, hss⟩

/-- With distinct keys, the in-place update touches the found row only. -/
theorem map_update_eq_of_distinct (t : List Stock) (s st : Stock) (hmem : s ∈ t)
    (hk : (t.map (·.ID)).Nodup) (x : Stock) (hx : x ∈ t) :
    (if x.ID = s.ID then st else x) = if x = s then st else x := by
  by_cases h : x.ID = s.ID
  · have : x = s := List.inj_on_of_nodup_map hk hx hmem h
    simp [this]
  · have : x ≠ s := fun hxs => h (by rw [hxs])
    simp [h, this]

theorem map_ID_eq_map_identity (t : List Stock) :
    t.map (·.ID) = (t.map Stock.identity).map (·.1) := by
  simp [List.map_map, Function.comp_def, Stock.identity]

theorem map_pair_eq_map_identity (t : List Stock) :
    t.map (fun s => (s.MaterialCode, s.LocationCode)) = (t.map Stock.identity).map (·.2) := by
  simp [List.map_map, Function.comp_def, Stock.identity]

/-- With distinct keys, a successful save keeps the identity of every row
and adds at most one: none when the pair had a balance, the row of the pair
under the next key when it had none. -/
theorem saveStock_ok_identities (now : Nat) (t : List Stock) (input : InventoryCheckInput)
    (ss : List Stock) (hk : (t.map (·.ID)).Nodup)
    (hs : saveStock now t
      (newStock input (firstStock t input.MaterialCode input.LocationCode)) = .ok ss) :
    (firstStock t input.MaterialCode input.LocationCode = none ∧
      ss.map Stock.identity = t.map Stock.identity ++
        [(nextID (t.map (·.ID)), input.MaterialCode, input.LocationCode)]) ∨
    ((∃ s, firstStock t input.MaterialCode input.LocationCode = some s) ∧
      ss.map Stock.identity = t.map Stock.identity) := by
  rcases saveStock_ok_cases now t input ss hs with ⟨hf, hss⟩ | ⟨s, hf, -, hss⟩
  · refine Or.inl ⟨hf, ?_⟩
    rw [hss]
    simp [Stock.identity]
  · refine Or.inr ⟨⟨s, hf⟩, ?_⟩
    obtain ⟨hmem, -, -⟩ := firstStock_some _ _ _ _ hf
    rw [hss, List.map_map]
    apply List.map_congr_left
    intro x hx
    simp only [Function.comp_apply]
    rw [map_update_eq_of_distinct t s _ hmem hk x hx]
    by_cases h : x = s
    · simp [h, Stock.identity]
    · simp [h]

/-- The pair of an absent balance is the pair of no row. -/
theorem pair_not_mem_of_absent (t : List Stock) (m l : String) (h : firstStock t m l = none) :
    (m, l) ∉ t.map (fun s => (s.MaterialCode, s.LocationCode)) := by
  unfold firstStock at h
  rw [List.find?_eq_none] at h
  intro hmem
  rw [List.mem_map] at hmem
  obtain ⟨s, hs, heq⟩ := hmem
  have := h s hs
  simp only [Prod.mk.injEq] at heq
  simp [heq.1, heq.2] at this

theorem nextID_not_mem (ids : List Nat) : nextID ids ∉ ids := by
  intro h
  have := lt_nextID ids _ h
  omega

/-- Distinct keys and unique balances survive a successful save. -/
theorem saveStock_ok_invariants (now : Nat) (t : List Stock) (input : InventoryCheckInput)
    (ss : List Stock) (hk : (t.map (·.ID)).Nodup)
    (hu : (t.map (fun s => (s.MaterialCode, s.LocationCode))).Nodup)
    (hs : saveStock now t
      (newStock input (firstStock t input.MaterialCode input.LocationCode)) = .ok ss) :
    (ss.map (·.ID)).Nodup ∧ (ss.map (fun s => (s.MaterialCode, s.LocationCode))).Nodup := by
  rw [map_ID_eq_map_identity ss, map_pair_eq_map_identity ss]
  rcases saveStock_ok_identities now t input ss hk hs with ⟨hf, hid⟩ | ⟨-, hid⟩
  · rw [hid]
    simp only [List.map_append, List.map_cons, List.map_nil]
    rw [← map_ID_eq_map_identity, ← map_pair_eq_map_identity]
    constructor
    · rw [List.nodup_append]
      refine ⟨hk, List.nodup_singleton _, ?_⟩
      intro a ha hb
      simp only [List.mem_singleton] at hb
      exact nextID_not_mem _ (hb ▸ ha)
    · rw [List.nodup_append]
      refine ⟨hu, List.nodup_singleton _, ?_⟩
      intro a ha hb
      simp only [List.mem_singleton] at hb
      exact pair_not_mem_of_absent _ _ _ hf (hb ▸ ha)
  · rw [hid, ← map_ID_eq_map_identity, ← map_pair_eq_map_identity]
    exact ⟨hk, hu⟩

/-- A check preserves distinct keys and unique balances, whatever its input
and the behaviour of the store. -/
theorem check_preserves_table_invariants (env : Env) (db : Tables)
    (input : InventoryCheckInput) (hk : DistinctKeys db) (hu : UniqueBalances db) :
    DistinctKeys (ProcessInventoryCheck env db input).db ∧
    UniqueBalances (ProcessInventoryCheck env db input).db := by
  rcases stocks_after_check env db input with h | ⟨-, ss, hs, h⟩
  · rw [h]; exact ⟨hk, hu⟩
  · rw [h]
    exact saveStock_ok_invariants _ _ _ _ hk hu hs

/-- A batch preserves distinct keys and unique balances. -/
theorem batch_preserves_table_invariants (world : Nat → Env) (db : Tables)
    (inputs : List InventoryCheckInput) (hk : DistinctKeys db) (hu : UniqueBalances db) :
    DistinctKeys (ProcessBatchInventoryCheck world db inputs).db ∧
    UniqueBalances (ProcessBatchInventoryCheck world db inputs).db := by
  induction inputs generalizing world db with
  | nil => exact ⟨hk, hu⟩
  | cons x xs ih =>
    obtain ⟨hk1, hu1⟩ := check_preserves_table_invariants (world 0) db x hk hu
    cases hres : (ProcessInventoryCheck (world 0) db x).result with
    | panicked p =>
      rw [batch_cons_panicked _ _ _ _ _ hres]
      exact ⟨hk1, hu1⟩
    | returned err =>
      rw [batch_cons_returned _ _ _ _ _ hres]
      exact ih _ _ hk1 hu1

/-- When no store call panics, a check that returns success is the committed
run. -/
theorem run_of_success (env : Env) (db : Tables) (input : InventoryCheckInput)
    (hnp : env.NoPanic) (h : (ProcessInventoryCheck env db input).result = .returned none) :
    validateInput input = none ∧
    ∃ ss, saveStock env.storeNow db.stocks
        (newStock input (firstStock db.stocks input.MaterialCode input.LocationCode)) = .ok ss ∧
      ProcessInventoryCheck env db input =
        ⟨.returned none, committedCalls, ⟨ss, db.records ++ [storedRecord env db input]⟩⟩ := by
  have hshape := run_cases env db input
  generalize ProcessInventoryCheck env db input = r at hshape h ⊢
  rcases hshape with ⟨err, hv, hr⟩ | ⟨hv, e0, hb, hr⟩ | ⟨hv, hb, st, e0, o, ho, hr⟩ |
    ⟨hv, hb, ss, hs, hr⟩ | ⟨hv, hp, hdb, hres, hcall⟩
  · subst hr; simp at h
  · subst hr; simp at h
  · subst hr; simp at h
  · exact ⟨hv, ss, hs, hr⟩
  · exact absurd hnp hp

/-- With distinct keys, a check keeps the identity of every balance row and
adds at most one row. -/
theorem check_identities (env : Env) (db : Tables) (input : InventoryCheckInput)
    (hk : DistinctKeys db) :
    ∃ extra, (ProcessInventoryCheck env db input).db.stocks.map Stock.identity
        = db.stocks.map Stock.identity ++ extra ∧ extra.length ≤ 1 := by
  rcases stocks_after_check env db input with h | ⟨-, ss, hs, h⟩
  · rw [h]; exact ⟨[], by simp, by simp⟩
  · rw [h]
    rcases saveStock_ok_identities _ _ _ _ hk hs with ⟨-, hid⟩ | ⟨-, hid⟩
    · exact ⟨_, hid, by simp⟩
    · exact ⟨[], by simpa using hid, by simp⟩

/-- A check preserves the distinctness of keys. -/
theorem check_preserves_distinct_keys (env : Env) (db : Tables) (input : InventoryCheckInput)
    (hk : DistinctKeys db) : DistinctKeys (ProcessInventoryCheck env db input).db := by
  rcases stocks_after_check env db input with h | ⟨-, ss, hs, h⟩
  · rw [h]; exact hk
  · rw [h]
    unfold DistinctKeys at hk ⊢
    simp only
    rw [map_ID_eq_map_identity ss]
    rcases saveStock_ok_identities _ _ _ _ hk hs with ⟨-, hid⟩ | ⟨-, hid⟩
    · rw [hid]
      simp only [List.map_append, List.map_cons, List.map_nil]
      rw [← map_ID_eq_map_identity, List.nodup_append]
      refine ⟨hk, List.nodup_singleton _, ?_⟩
      intro a ha hb
      simp only [List.mem_singleton] at hb
      exact nextID_not_mem _ (hb ▸ ha)
    · rw [hid, ← map_ID_eq_map_identity]
      exact hk

/-- With distinct keys, a batch keeps the identity of every balance row. -/
theorem batch_identities (world : Nat → Env) (db : Tables) (inputs : List InventoryCheckInput)
    (hk : DistinctKeys db) :
    ∃ extra, (ProcessBatchInventoryCheck world db inputs).db.stocks.map Stock.identity
        = db.stocks.map Stock.identity ++ extra := by
  induction inputs generalizing world db with
  | nil => exact ⟨[], by simp [ProcessBatchInventoryCheck]⟩
  | cons x xs ih =>
    obtain ⟨extra1, h1, -⟩ := check_identities (world 0) db x hk
    have hk1 := check_preserves_distinct_keys (world 0) db x hk
    cases hres : (ProcessInventoryCheck (world 0) db x).result with
    | panicked p =>
      rw [batch_cons_panicked _ _ _ _ _ hres]
      exact ⟨extra1, h1⟩
    | returned err =>
      rw [batch_cons_returned _ _ _ _ _ hres]
      obtain ⟨extra2, h2⟩ := ih (fun i => world (i + 1)) _ hk1
      exact ⟨extra1 ++ extra2, by simp only [h2, h1, List.append_assoc]⟩

/-- Claim C11: on a stock table with its primary key (distinct IDs), having at
most one balance per (materialCode, locationCode) pair is an invariant of
ProcessInventoryCheck and of ProcessBatchInventoryCheck, for every input and
every store behaviour, success or failure. No balance is ever deleted: every
row keeps its key and pair, a check adds at most one row. When no store call
panics, a successful check for a pair with a balance leaves the rows and their
identities as they were and overwrites that same row (same key) with the
counted quantity, and a successful check for a pair without a balance adds
exactly one row, of that pair. When a store call panics this last part fails:
on an empty store a check whose record write panics returns nil, the success
result, and adds no balance. -/
theorem uniqueness_is_invariant (env : Env) (world : Nat → Env) (db : Tables)
    (input : InventoryCheckInput) (inputs : List InventoryCheckInput)
    (hk : DistinctKeys db) (hu : UniqueBalances db) :
    UniqueBalances (ProcessInventoryCheck env db input).db ∧
    UniqueBalances (ProcessBatchInventoryCheck world db inputs).db ∧
    (∃ extra, (ProcessInventoryCheck env db input).db.stocks.map Stock.identity
        = db.stocks.map Stock.identity ++ extra ∧ extra.length ≤ 1) ∧
    (∃ extra, (ProcessBatchInventoryCheck world db inputs).db.stocks.map Stock.identity
        = db.stocks.map Stock.identity ++ extra) ∧
    (env.NoPanic → (ProcessInventoryCheck env db input).result = .returned none →
      ∀ s, firstStock db.stocks input.MaterialCode input.LocationCode = some s →
        (ProcessInventoryCheck env db input).db.stocks.map Stock.identity
          = db.stocks.map Stock.identity ∧
        ∃ st, firstStock (ProcessInventoryCheck env db input).db.stocks
            input.MaterialCode input.LocationCode = some st ∧
          st.ID = s.ID ∧ st.Quantity = input.ActualQuantity) ∧
    (env.NoPanic → (ProcessInventoryCheck env db input).result = .returned none →
      NoBalance db input.MaterialCode input.LocationCode →
        ∃ st, (ProcessInventoryCheck env db input).db.stocks = db.stocks ++ [st] ∧
          st.MaterialCode = input.MaterialCode ∧ st.LocationCode = input.LocationCode ∧
          st.Quantity = input.ActualQuantity) ∧
    ((ProcessInventoryCheck (Env.recordWritePanics "nil pointer dereference") ⟨[], []⟩
        ⟨"u1", "L1", "M1", 50⟩).result = .returned none ∧
      NoBalance ⟨[], []⟩ "M1" "L1" ∧
      (ProcessInventoryCheck (Env.recordWritePanics "nil pointer dereference") ⟨[], []⟩
        ⟨"u1", "L1", "M1", 50⟩).db.stocks = []) := by
  refine ⟨(check_preserves_table_invariants env db input hk hu).2,
    (batch_preserves_table_invariants world db inputs hk hu).2,
    check_identities env db input hk, batch_identities world db inputs hk, ?_, ?_,
    by decide⟩
  · intro hnp hres s hf
    obtain ⟨-, ss, hs, hrun⟩ := run_of_success env db input hnp hres
    rw [hrun]
    simp only
    obtain ⟨-, hm, hl⟩ := firstStock_some _ _ _ _ hf
    rcases saveStock_ok_identities _ _ _ _ hk hs with ⟨hnone, -⟩ | ⟨-, hid⟩
    · rw [hf] at hnone; cases hnone
    · refine ⟨hid, ?_⟩
      rw [hf] at hs
      obtain ⟨-, hss⟩ := saveStock_found _ _ _ _ _ hf hs
      rw [hss]
      exact ⟨_, firstStock_map_update _ _ _ _ _ hf hm hl, rfl, rfl⟩
  · intro hnp hres habsent
    obtain ⟨-, ss, hs, hrun⟩ := run_of_success env db input hnp hres
    have hnone := (firstStock_eq_none_iff db _ _).2 habsent
    rw [hnone, saveStock_absent _ _ _ hnone] at hs
    rw [hrun, ← Except.ok.inj hs]
    exact ⟨_, rfl, rfl, rfl, rfl⟩

/-- Witness of C11: a store with two balances under distinct keys; a re-count
of one pair and a batch of three counts leave one balance per pair. -/
theorem uniqueness_is_invariant_witness :
    DistinctKeys twoBalances ∧ UniqueBalances twoBalances ∧
    UniqueBalances (ProcessInventoryCheck (Env.allOk 7 9) twoBalances
      ⟨"u1", "L1", "M1", 45⟩).db ∧
    UniqueBalances (ProcessBatchInventoryCheck secondItemFails twoBalances threeCounts).db ∧
    (ProcessInventoryCheck (Env.allOk 7 9) twoBalances ⟨"u1", "L1", "M1", 45⟩).db.stocks
      = [⟨1, "M1", "L1", 45, 3, 9⟩, ⟨2, "M2", "L1", 7, 4, 4⟩] :=
  have h := uniqueness_is_invariant (Env.allOk 7 9) secondItemFails twoBalances
    ⟨"u1", "L1", "M1", 45⟩ threeCounts (by decide) (by decide)
  ⟨by decide, by decide, h.1, h.2.1, by decide⟩

/-- Claim C12, the behaviour of the code: when no store call panics, two
successful checks in a row on the same (materialCode, locationCode) pair with
actual quantities a1 and a2 (Go ints), the second run on the tables the first
left, give a second record with StockQuantity = a1 and Difference = a2 - a1,
and a balance of a2 afterwards. In particular, on an empty store a count of 50
followed by a count of 45 of the same pair gives a second record with
StockQuantity 50 and Difference -5 and a final balance of 45. When the stock
write of the first count panics instead, that check returns nil, the success
result, without writing, and the record of the second count shows
StockQuantity 0 and Difference 45, not 50 and -5. -/
theorem recheck_records_previous_count (env1 env2 : Env) (db : Tables)
    (first second : InventoryCheckInput)
    (hnp1 : env1.NoPanic) (hnp2 : env2.NoPanic)
    (hm : second.MaterialCode = first.MaterialCode)
    (hl : second.LocationCode = first.LocationCode)
    (hint1 : IsGoInt first.ActualQuantity) (hint2 : IsGoInt second.ActualQuantity)
    (h1 : (ProcessInventoryCheck env1 db first).result = .returned none)
    (h2 : (ProcessInventoryCheck env2 (ProcessInventoryCheck env1 db first).db second).result
      = .returned none) :
    (∃ record balance,
      (ProcessInventoryCheck env2 (ProcessInventoryCheck env1 db first).db second).db.records
        = (ProcessInventoryCheck env1 db first).db.records ++ [record] ∧
      record.StockQuantity = first.ActualQuantity ∧
      record.Difference = second.ActualQuantity - first.ActualQuantity ∧
      firstStock
        (ProcessInventoryCheck env2 (ProcessInventoryCheck env1 db first).db second).db.stocks
        second.MaterialCode second.LocationCode = some balance ∧
      balance.Quantity = second.ActualQuantity) ∧
    ((ProcessInventoryCheck (Env.allOk 7 9) afterFirstCount ⟨"u1", "L1", "M1", 45⟩).result
        = .returned none ∧
      (ProcessInventoryCheck (Env.allOk 7 9) afterFirstCount
        ⟨"u1", "L1", "M1", 45⟩).db.records.map
          (fun r => (r.StockQuantity, r.ActualQuantity, r.Difference))
        = [(0, 50, 50), (50, 45, -5)] ∧
      (ProcessInventoryCheck (Env.allOk 7 9) afterFirstCount
        ⟨"u1", "L1", "M1", 45⟩).db.stocks.map (fun s => (s.identity, s.Quantity))
        = [((1, "M1", "L1"), 45)]) ∧
    ((ProcessInventoryCheck (Env.stockWritePanics "nil pointer dereference") ⟨[], []⟩
        ⟨"u1", "L1", "M1", 50⟩).result = .returned none ∧
      (ProcessInventoryCheck (Env.allOk 7 9) afterPanickedCount ⟨"u1", "L1", "M1", 45⟩).result
        = .returned none ∧
      (ProcessInventoryCheck (Env.allOk 7 9) afterPanickedCount
        ⟨"u1", "L1", "M1", 45⟩).db.records.map
          (fun r => (r.StockQuantity, r.ActualQuantity, r.Difference))
        = [(0, 45, 45)]) := by
  refine ⟨?_, by decide, by decide⟩
  obtain ⟨hv1, ss1, hs1, hrun1⟩ := run_of_success env1 db first hnp1 h1
  obtain ⟨st, hst, hq⟩ := saveStock_ok_balance _ _ _ _ hs1
  have hdb1 : (ProcessInventoryCheck env1 db first).db
      = ⟨ss1, db.records ++ [storedRecord env1 db first]⟩ := by rw [hrun1]
  have hfound : firstStock (ProcessInventoryCheck env1 db first).db.stocks
      second.MaterialCode second.LocationCode = some st := by
    rw [hdb1, hm, hl]; exact hst
  obtain ⟨hv2, ss2, hs2, hrun2⟩ := run_of_success env2 _ second hnp2 h2
  obtain ⟨st2, hst2, hq2⟩ := saveStock_ok_balance _ _ _ _ hs2
  have hpos1 := ((validateInput_eq_none_iff first).1 hv1).2.2.2
  have hpos2 := ((validateInput_eq_none_iff second).1 hv2).2.2.2
  rw [hrun2]
  refine ⟨storedRecord env2 _ second, st2, rfl, ?_, ?_, hst2, hq2⟩
  · simp [storedRecord, newRecord, hfound, priorQuantity, hq]
  · simp only [storedRecord, newRecord, hfound, priorQuantity, hq]
    apply wrapInt_of_isGoInt
    unfold IsGoInt at hint1 hint2 ⊢
    omega

/-- Witness of C12: the two counts of the specification scenario, 50 then 45
of (M1, L1), on an empty store where every call runs. -/
theorem recheck_records_previous_count_witness :
    ∃ record balance,
      (ProcessInventoryCheck (Env.allOk 7 9)
        (ProcessInventoryCheck (Env.allOk 7 9) ⟨[], []⟩ ⟨"u1", "L1", "M1", 50⟩).db
        ⟨"u1", "L1", "M1", 45⟩).db.records
        = (ProcessInventoryCheck (Env.allOk 7 9) ⟨[], []⟩ ⟨"u1", "L1", "M1", 50⟩).db.records
          ++ [record] ∧
      record.StockQuantity = 50 ∧
      record.Difference = 45 - 50 ∧
      firstStock
        (ProcessInventoryCheck (Env.allOk 7 9)
          (ProcessInventoryCheck (Env.allOk 7 9) ⟨[], []⟩ ⟨"u1", "L1", "M1", 50⟩).db
          ⟨"u1", "L1", "M1", 45⟩).db.stocks "M1" "L1" = some balance ∧
      balance.Quantity = 45 :=
  (recheck_records_previous_count (Env.allOk 7 9) (Env.allOk 7 9) ⟨[], []⟩
    ⟨"u1", "L1", "M1", 50⟩ ⟨"u1", "L1", "M1", 45⟩
    (by simp [Env.NoPanic, Env.allOk]) (by simp [Env.NoPanic, Env.allOk]) rfl rfl
    (by decide) (by decide) (by decide) (by decide)).1

/-! ## Non-negative quantities -/

/-- Every row of a successfully saved stock table is a row of the table
before or carries the counted quantity. -/
theorem saveStock_ok_rows (now : Nat) (t : List Stock) (input : InventoryCheckInput)
    (ss : List Stock)
    (hs : saveStock now t
      (newStock input (firstStock t input.MaterialCode input.LocationCode)) = .ok ss) :
    ∀ x ∈ ss, x ∈ t ∨ x.Quantity = input.ActualQuantity := by
  intro x hx
  rcases saveStock_ok_cases now t input ss hs with ⟨-, hss⟩ | ⟨s, -, -, hss⟩
  · rw [hss, List.mem_append, List.mem_singleton] at hx
    rcases hx with hx | hx
    · exact Or.inl hx
    · exact Or.inr (by rw [hx])
  · rw [hss, List.mem_map] at hx
    obtain ⟨y, hy, hxy⟩ := hx
    by_cases h : y.ID = s.ID
    · simp only [h, if_true] at hxy
      exact Or.inr (by rw [← hxy])
    · simp only [h, if_false] at hxy
      exact Or.inl (hxy ▸ hy)

/-- A check keeps the stock quantities non-negative. -/
theorem check_preserves_nonneg_stock (env : Env) (db : Tables) (input : InventoryCheckInput)
    (h : NonNegativeStock db) : NonNegativeStock (ProcessInventoryCheck env db input).db := by
  rcases stocks_after_check env db input with hdb | ⟨hv, ss, hs, hdb⟩
  · rw [hdb]; exact h
  · rw [hdb]
    have hpos := ((validateInput_eq_none_iff input).1 hv).2.2.2
    intro x hx
    rcases saveStock_ok_rows _ _ _ _ hs x hx with hmem | hq
    · exact h x hmem
    · rw [hq]; exact hpos

/-- A check keeps the quantities shown by the records non-negative, on a
store of non-negative balances. -/
theorem check_preserves_nonneg_records (env : Env) (db : Tables) (input : InventoryCheckInput)
    (h : NonNegativeStock db) (hr : NonNegativeRecords db) :
    NonNegativeRecords (ProcessInventoryCheck env db input).db := by
  rcases stocks_after_check env db input with hdb | ⟨hv, ss, hs, hdb⟩
  · rw [hdb]; exact hr
  · rw [hdb]
    have hpos := ((validateInput_eq_none_iff input).1 hv).2.2.2
    intro r hmem
    simp only [List.mem_append, List.mem_singleton] at hmem
    rcases hmem with hmem | rfl
    · exact hr r hmem
    · refine ⟨?_, hpos⟩
      simp only [storedRecord, newRecord, priorQuantity]
      cases hf : firstStock db.stocks input.MaterialCode input.LocationCode with
      | none => simp
      | some s => exact h s (firstStock_some _ _ _ _ hf).1

/-- A batch keeps the stock quantities and the quantities shown by the
records non-negative. -/
theorem batch_preserves_nonneg (world : Nat → Env) (db : Tables)
    (inputs : List InventoryCheckInput) (h : NonNegativeStock db) :
    NonNegativeStock (ProcessBatchInventoryCheck world db inputs).db ∧
    (NonNegativeRecords db →
      NonNegativeRecords (ProcessBatchInventoryCheck world db inputs).db) := by
  induction inputs generalizing world db with
  | nil => exact ⟨h, fun hr => hr⟩
  | cons x xs ih =>
    have h1 := check_preserves_nonneg_stock (world 0) db x h
    have hr1 := check_preserves_nonneg_records (world 0) db x h
    cases hres : (ProcessInventoryCheck (world 0) db x).result with
    | panicked p =>
      rw [batch_cons_panicked _ _ _ _ _ hres]
      exact ⟨h1, hr1⟩
    | returned err =>
      rw [batch_cons_returned _ _ _ _ _ hres]
      obtain ⟨ih1, ih2⟩ := ih (fun i => world (i + 1)) _ h1
      exact ⟨ih1, fun hr => ih2 (hr1 hr)⟩

/-- Claim C15: non-negativity of stock is an invariant of the engine. If every
balance is at least 0 before a call, then after ProcessInventoryCheck and after
ProcessBatchInventoryCheck, for any inputs, valid or not, and under any store
behaviour, every balance is still at least 0; hence in every state reachable
from the empty store through the engine alone every balance is at least 0 and
every check record has StockQuantity and ActualQuantity at least 0. -/
theorem nonnegative_stock_is_invariant :
    (∀ (env : Env) (db : Tables) (input : InventoryCheckInput),
      NonNegativeStock db → NonNegativeStock (ProcessInventoryCheck env db input).db) ∧
    (∀ (world : Nat → Env) (db : Tables) (inputs : List InventoryCheckInput),
      NonNegativeStock db → NonNegativeStock (ProcessBatchInventoryCheck world db inputs).db) ∧
    (∀ db : Tables, Reachable db → NonNegativeStock db ∧ NonNegativeRecords db) := by
  refine ⟨check_preserves_nonneg_stock, fun world db inputs h =>
    (batch_preserves_nonneg world db inputs h).1, ?_⟩
  intro db hreach
  induction hreach with
  | empty =>
    constructor
    · intro s hs; simp at hs
    · intro r hr; simp at hr
  | check env db input _ ih =>
    exact ⟨check_preserves_nonneg_stock env db input ih.1,
      check_preserves_nonneg_records env db input ih.1 ih.2⟩
  | batch world db inputs _ ih =>
    exact ⟨(batch_preserves_nonneg world db inputs ih.1).1,
      (batch_preserves_nonneg world db inputs ih.1).2 ih.2⟩

/-! ## Frame -/

/-- A row-wise change that maps rows outside a selection to rows outside it
and leaves the other rows alone does not change the selection. -/
theorem filter_map_of_frame (p : Stock → Bool) (f : Stock → Stock) (t : List Stock)
    (h : ∀ x ∈ t, f x = x ∨ (p x = false ∧ p (f x) = false)) :
    (t.map f).filter p = t.filter p := by
  induction t with
  | nil => rfl
  | cons a t ih =>
    have iht := ih (fun x hx => h x (List.mem_cons_of_mem _ hx))
    rw [List.map_cons, List.filter_cons, List.filter_cons, iht]
    rcases h a (List.mem_cons_self _ _) with ha | ⟨ha1, ha2⟩
    · rw [ha]
    · rw [ha1, ha2]
      rfl

theorem find?_eq_head?_filter (p : Stock → Bool) (t : List Stock) :
    t.find? p = (t.filter p).head? := by
  induction t with
  | nil => rfl
  | cons a t ih =>
    by_cases h : p a = true
    · rw [List.find?_cons_of_pos _ h, List.filter_cons_of_pos h]
      rfl
    · rw [List.find?_cons_of_neg _ h, List.filter_cons_of_neg h]
      exact ih

/-- Claim C16: on a stock table with its primary key (distinct IDs), a check
for the pair of its input leaves the balance of every other (materialCode,
locationCode) pair as it was, on success and on failure alike and under every
store behaviour: the rows of the other pair, and so its presence and its
quantity as the lookup reports them, are the same after the call as before. -/
theorem other_pairs_unchanged (env : Env) (db : Tables) (input : InventoryCheckInput)
    (m l : String) (hk : DistinctKeys db)
    (hother : ¬ (m = input.MaterialCode ∧ l = input.LocationCode)) :
    (ProcessInventoryCheck env db input).db.stocks.filter
        (fun s => s.MaterialCode == m && s.LocationCode == l)
      = db.stocks.filter (fun s => s.MaterialCode == m && s.LocationCode == l) ∧
    firstStock (ProcessInventoryCheck env db input).db.stocks m l = firstStock db.stocks m l := by
  have hfilter : (ProcessInventoryCheck env db input).db.stocks.filter
        (fun s => s.MaterialCode == m && s.LocationCode == l)
      = db.stocks.filter (fun s => s.MaterialCode == m && s.LocationCode == l) := by
    rcases stocks_after_check env db input with hdb | ⟨-, ss, hs, hdb⟩
    · rw [hdb]
    · rw [hdb]
      simp only
      rcases saveStock_ok_cases _ _ _ _ hs with ⟨-, hss⟩ | ⟨s, hf, -, hss⟩
      · rw [hss, List.filter_append, List.filter_cons_of_neg, List.filter_nil, List.append_nil]
        simp only [Bool.and_eq_true, beq_iff_eq, not_and]
        intro h1 h2
        exact hother ⟨h1.symm, h2.symm⟩
      · obtain ⟨hmem, hm, hl⟩ := firstStock_some _ _ _ _ hf
        rw [hss]
        apply filter_map_of_frame
        intro x hx
        rw [map_update_eq_of_distinct _ s _ hmem hk x hx]
        by_cases hxs : x = s
        · right
          subst hxs
          have hne : (x.MaterialCode == m && x.LocationCode == l) = false := by
            rw [Bool.eq_false_iff]
            intro h
            simp only [Bool.and_eq_true, beq_iff_eq] at h
            exact hother ⟨by rw [← h.1, hm], by rw [← h.2, hl]⟩
          rw [if_pos rfl]
          exact ⟨hne, hne⟩
        · left
          rw [if_neg hxs]
  refine ⟨hfilter, ?_⟩
  unfold firstStock
  rw [find?_eq_head?_filter, find?_eq_head?_filter, hfilter]

/-- Witness of C16: a re-count of (M1, L1) on a store that also holds the
balance 7 of (M2, L1). -/
theorem other_pairs_unchanged_witness :
    DistinctKeys twoBalances ∧
    firstStock (ProcessInventoryCheck (Env.allOk 7 9) twoBalances
      ⟨"u1", "L1", "M1", 45⟩).db.stocks "M2" "L1" = firstStock twoBalances.stocks "M2" "L1" ∧
    firstStock twoBalances.stocks "M2" "L1" = some ⟨2, "M2", "L1", 7, 4, 4⟩ :=
  ⟨by decide,
   (other_pairs_unchanged (Env.allOk 7 9) twoBalances ⟨"u1", "L1", "M1", 45⟩ "M2" "L1"
     (by decide) (by decide)).2,
   by decide⟩

/-! ## Upload handler -/

/-- What a decoded request says about the decoding of each field. -/
theorem decodeRequest_object_ok (c l m q : Option JsonValue) (req : InventoryCheckRequest)
    (h : decodeRequest (.object c l m q) = .ok req) :
    decodeString "checker_id" c = .ok req.CheckerID ∧
    decodeString "location_code" l = .ok req.LocationCode ∧
    decodeString "material_code" m = .ok req.MaterialCode ∧
    decodeInt "actual_quantity" q = .ok req.ActualQuantity := by
  unfold decodeRequest at h
  cases hc : decodeString "checker_id" c with
  | error e => simp [hc] at h
  | ok checker =>
    cases hl : decodeString "location_code" l with
    | error e => simp [hc, hl] at h
    | ok location =>
      cases hm : decodeString "material_code" m with
      | error e => simp [hc, hl, hm] at h
      | ok material =>
        cases hq : decodeInt "actual_quantity" q with
        | error e => simp [hc, hl, hm, hq] at h
        | ok quantity =>
          simp only [hc, hl, hm, hq, Except.ok.injEq] at h
          subst h
          exact ⟨rfl, rfl, rfl, rfl⟩

/-- A request passes the binding tags exactly when its three codes are not
empty and its quantity is positive. -/
theorem validateRequest_eq_nil_iff (req : InventoryCheckRequest) :
    validateRequest req = [] ↔
      req.CheckerID ≠ "" ∧ req.LocationCode ≠ "" ∧ req.MaterialCode ≠ "" ∧
      0 < req.ActualQuantity := by
  unfold validateRequest
  by_cases h1 : req.CheckerID = "" <;> by_cases h2 : req.LocationCode = "" <;>
    by_cases h3 : req.MaterialCode = "" <;> by_cases h4 : req.ActualQuantity = 0 <;>
    by_cases h5 : req.ActualQuantity < 0 <;> simp [h1, h2, h3, h4, h5]
  all_goals omega

/-- What binding accepts: the request decoded from the body, when it passes
the tags. -/
theorem shouldBindJSON_ok (body : RequestBody) (req : InventoryCheckRequest)
    (h : ShouldBindJSON body = .ok req) :
    decodeRequest body = .ok req ∧ validateRequest req = [] := by
  unfold ShouldBindJSON at h
  cases hd : decodeRequest body with
  | error e => simp [hd] at h
  | ok r =>
    simp only [hd] at h
    by_cases hv : validateRequest r = []
    · simp only [hv, if_true, Except.ok.injEq] at h
      subst h
      exact ⟨rfl, hv⟩
    · simp [hv] at h

theorem error_of_not_ok (body : RequestBody)
    (h : ∀ req, ShouldBindJSON body ≠ .ok req) : ∃ e, ShouldBindJSON body = .error e := by
  cases hb : ShouldBindJSON body with
  | error e => exact ⟨e, rfl⟩
  | ok req => exact absurd hb (h req)

/-- Claim C13: an upload whose payload binding rejects is answered with HTTP
status 400 and a body of code -1 (the error response with the binding error's
text), and ProcessInventoryCheck is not called. Binding rejects, among others,
every payload with one of the four keys missing, every negative
actual_quantity and every actual_quantity that is not an integer. -/
theorem rejected_payload_gets_400 (service : InventoryCheckInput → Option Error)
    (errorText : BindError → String) (body : RequestBody) (err : BindError)
    (h : ShouldBindJSON body = .error err) :
    (UploadCheck service errorText body).status = 400 ∧
    (UploadCheck service errorText body).body.Code = -1 ∧
    (UploadCheck service errorText body).body
      = ErrorResponse ("Invalid request: " ++ errorText err) ∧
    (UploadCheck service errorText body).serviceCalls = [] ∧
    (∀ c l m q : Option JsonValue, (c = none ∨ l = none ∨ m = none ∨ q = none) →
      ∃ e, ShouldBindJSON (.object c l m q) = .error e) ∧
    (∀ (c l m : Option JsonValue) (n : Int), n < 0 →
      ∃ e, ShouldBindJSON (.object c l m (some (.integer n))) = .error e) ∧
    (∀ (c l m : Option JsonValue) (v : JsonValue), (∀ n, v ≠ .integer n) →
      ∃ e, ShouldBindJSON (.object c l m (some v)) = .error e) := by
  refine ⟨?_, ?_, ?_, ?_, ?_, ?_, ?_⟩
  · unfold UploadCheck; rw [h]
  · unfold UploadCheck; rw [h]; rfl
  · unfold UploadCheck; rw [h]
  · unfold UploadCheck; rw [h]
  · intro c l m q hmiss
    apply error_of_not_ok
    intro req hok
    obtain ⟨hd, hv⟩ := shouldBindJSON_ok _ _ hok
    obtain ⟨hc, hl, hm, hq⟩ := decodeRequest_object_ok _ _ _ _ _ hd
    obtain ⟨v1, v2, v3, v4⟩ := (validateRequest_eq_nil_iff req).1 hv
    rcases hmiss with rfl | rfl | rfl | rfl
    · simp only [decodeString, Except.ok.injEq] at hc
      exact v1 hc.symm
    · simp only [decodeString, Except.ok.injEq] at hl
      exact v2 hl.symm
    · simp only [decodeString, Except.ok.injEq] at hm
      exact v3 hm.symm
    · simp only [decodeInt, Except.ok.injEq] at hq
      omega
  · intro c l m n hn
    apply error_of_not_ok
    intro req hok
    obtain ⟨hd, hv⟩ := shouldBindJSON_ok _ _ hok
    obtain ⟨-, -, -, hq⟩ := decodeRequest_object_ok _ _ _ _ _ hd
    obtain ⟨-, -, -, v4⟩ := (validateRequest_eq_nil_iff req).1 hv
    unfold decodeInt at hq
    by_cases hr : IsGoInt n
    · simp only [hr, if_true, Except.ok.injEq] at hq
      omega
    · simp [hr] at hq
  · intro c l m v hv0
    apply error_of_not_ok
    intro req hok
    obtain ⟨hd, hv⟩ := shouldBindJSON_ok _ _ hok
    obtain ⟨-, -, -, hq⟩ := decodeRequest_object_ok _ _ _ _ _ hd
    obtain ⟨-, -, -, v4⟩ := (validateRequest_eq_nil_iff req).1 hv
    cases v with
    | null =>
      simp only [decodeInt, Except.ok.injEq] at hq
      omega
    | bool b => simp [decodeInt] at hq
    | integer n => exact hv0 n rfl
    | fraction => simp [decodeInt] at hq
    | string s => simp [decodeInt] at hq
    | array => simp [decodeInt] at hq
    | object => simp [decodeInt] at hq

/-- Witness of C13: the payload of `TestUploadCheck_MissingRequiredField`, with
no checker_id. -/
theorem rejected_payload_gets_400_witness :
    ShouldBindJSON (.object none (some (.string "LOC001")) (some (.string "MAT001"))
      (some (.integer 100))) = .error (.validation [("CheckerID", "required")]) ∧
    (UploadCheck (fun _ => none) (fun _ => "") (.object none (some (.string "LOC001"))
      (some (.string "MAT001")) (some (.integer 100)))).status = 400 ∧
    (UploadCheck (fun _ => none) (fun _ => "") (.object none (some (.string "LOC001"))
      (some (.string "MAT001")) (some (.integer 100)))).body.Code = -1 ∧
    (UploadCheck (fun _ => none) (fun _ => "") (.object none (some (.string "LOC001"))
      (some (.string "MAT001")) (some (.integer 100)))).serviceCalls = [] :=
  have h := rejected_payload_gets_400 (fun _ => none) (fun _ => "")
    (.object none (some (.string "LOC001")) (some (.string "MAT001")) (some (.integer 100)))
    (.validation [("CheckerID", "required")]) rfl
  ⟨rfl, h.1, h.2.1, h.2.2.2.1⟩

/-- Claim C14, the behaviour of the code: a payload with non-empty checker_id,
location_code and material_code and the integer actual_quantity 0 is rejected
by binding (the `required` tag fails on the zero value), answered with status
400 and code -1, and ProcessInventoryCheck is not called; so is an integer
beyond the range of int. For an actual_quantity from 1 to the largest int the
handler passes exactly the four values to ProcessInventoryCheck and answers
200 with code 0 and message "success" when the service returns no error, 500
with code -1 when it returns one. -/
theorem upload_of_zero_quantity_is_rejected (service : InventoryCheckInput → Option Error)
    (errorText : BindError → String) (c l m : String) :
    ((UploadCheck service errorText (.object (some (.string c)) (some (.string l))
        (some (.string m)) (some (.integer 0)))).status = 400 ∧
      (UploadCheck service errorText (.object (some (.string c)) (some (.string l))
        (some (.string m)) (some (.integer 0)))).body.Code = -1 ∧
      (UploadCheck service errorText (.object (some (.string c)) (some (.string l))
        (some (.string m)) (some (.integer 0)))).serviceCalls = []) ∧
    (∀ q : Int, 2 ^ 63 ≤ q →
      (UploadCheck service errorText (.object (some (.string c)) (some (.string l))
        (some (.string m)) (some (.integer q)))).status = 400 ∧
      (UploadCheck service errorText (.object (some (.string c)) (some (.string l))
        (some (.string m)) (some (.integer q)))).serviceCalls = []) ∧
    (∀ q : Int, c ≠ "" → l ≠ "" → m ≠ "" → 0 < q → q < 2 ^ 63 →
      (UploadCheck service errorText (.object (some (.string c)) (some (.string l))
        (some (.string m)) (some (.integer q)))).serviceCalls = [⟨c, l, m, q⟩] ∧
      (service ⟨c, l, m, q⟩ = none →
        (UploadCheck service errorText (.object (some (.string c)) (some (.string l))
          (some (.string m)) (some (.integer q)))).status = 200 ∧
        (UploadCheck service errorText (.object (some (.string c)) (some (.string l))
          (some (.string m)) (some (.integer q)))).body = ⟨0, "success"⟩) ∧
      (∀ e, service ⟨c, l, m, q⟩ = some e →
        (UploadCheck service errorText (.object (some (.string c)) (some (.string l))
          (some (.string m)) (some (.integer q)))).status = 500 ∧
        (UploadCheck service errorText (.object (some (.string c)) (some (.string l))
          (some (.string m)) (some (.integer q)))).body.Code = -1)) := by
  refine ⟨?_, ?_, ?_⟩
  · have hb : ∃ e, ShouldBindJSON (.object (some (.string c)) (some (.string l))
        (some (.string m)) (some (.integer 0))) = .error e := by
      apply error_of_not_ok
      intro req hok
      obtain ⟨hd, hv⟩ := shouldBindJSON_ok _ _ hok
      obtain ⟨-, -, -, hq⟩ := decodeRequest_object_ok _ _ _ _ _ hd
      obtain ⟨-, -, -, v4⟩ := (validateRequest_eq_nil_iff req).1 hv
      have h0 : IsGoInt 0 := by decide
      simp only [decodeInt, h0, if_true, Except.ok.injEq] at hq
      omega
    obtain ⟨e, he⟩ := hb
    unfold UploadCheck
    rw [he]
    exact ⟨rfl, rfl, rfl⟩
  · intro q hq
    have hr : ¬ IsGoInt q := by
      unfold IsGoInt; omega
    have hb : ShouldBindJSON (.object (some (.string c)) (some (.string l))
        (some (.string m)) (some (.integer q))) = .error (.typeMismatch "actual_quantity") := by
      simp [ShouldBindJSON, decodeRequest, decodeString, decodeInt, hr]
    unfold UploadCheck
    rw [hb]
    exact ⟨rfl, rfl⟩
  · intro q hc hl hm hq0 hq1
    have hr : IsGoInt q := by
      unfold IsGoInt; omega
    have hv : validateRequest ⟨c, l, m, q⟩ = [] :=
      (validateRequest_eq_nil_iff _).2 ⟨hc, hl, hm, hq0⟩
    have hb : ShouldBindJSON (.object (some (.string c)) (some (.string l))
        (some (.string m)) (some (.integer q))) = .ok ⟨c, l, m, q⟩ := by
      simp [ShouldBindJSON, decodeRequest, decodeString, decodeInt, hr, hv]
    unfold UploadCheck
    rw [hb]
    refine ⟨?_, ?_, ?_⟩
    · simp only
      cases service ⟨c, l, m, q⟩ <;> rfl
    · intro hs
      simp [hs, SuccessResponse]
    · intro e hs
      simp [hs, ErrorResponse]

end Wms
